import Mathlib

/-!
A verification development for the Avian Software Minimum Viable Product
vortex-lattice solvers (steady horseshoe, steady ring, unsteady ring).

The solver modules (`steady_horseshoe_vortex_lattice_method.py`,
`steady_ring_vortex_lattice_method.py`, `unsteady_ring_vortex_lattice_method.py`,
and the legacy unsteady solver) are embedded shallowly below.  Geometry is over
exact rationals; the Biot-Savart unit-strength velocity kernel of a straight
vortex filament lives in the absent `aerodynamics` module and is therefore a
parameter (`K : LineVortex → Vec3 → Vec3`) of every definition that needs it,
as is the flapping-velocity lookup of the absent `performance` module.
-/

namespace Asmvp

/-- A 3-vector of rational coordinates, standing in for a numpy length-3 array
of floats in geometry axes. -/
structure Vec3 where
  x : ℚ
  y : ℚ
  z : ℚ
deriving DecidableEq

namespace Vec3

instance : Zero Vec3 := ⟨⟨0, 0, 0⟩⟩

instance : Add Vec3 := ⟨fun a b => ⟨a.x + b.x, a.y + b.y, a.z + b.z⟩⟩

instance : Neg Vec3 := ⟨fun a => ⟨-a.x, -a.y, -a.z⟩⟩

instance : Sub Vec3 := ⟨fun a b => ⟨a.x - b.x, a.y - b.y, a.z - b.z⟩⟩

instance : SMul ℚ Vec3 := ⟨fun c a => ⟨c * a.x, c * a.y, c * a.z⟩⟩

/-- The dot product of two vectors (`np.dot`). -/
def dot (a b : Vec3) : ℚ := a.x * b.x + a.y * b.y + a.z * b.z

/-- The cross product of two vectors (`np.cross`). -/
def cross (a b : Vec3) : Vec3 :=
  ⟨a.y * b.z - a.z * b.y, a.z * b.x - a.x * b.z, a.x * b.y - a.y * b.x⟩

@[simp] theorem zero_x : (0 : Vec3).x = 0 := rfl

@[simp] theorem zero_y : (0 : Vec3).y = 0 := rfl

@[simp] theorem zero_z : (0 : Vec3).z = 0 := rfl

@[simp] theorem add_x (a b : Vec3) : (a + b).x = a.x + b.x := rfl

@[simp] theorem add_y (a b : Vec3) : (a + b).y = a.y + b.y := rfl

@[simp] theorem add_z (a b : Vec3) : (a + b).z = a.z + b.z := rfl

@[simp] theorem sub_x (a b : Vec3) : (a - b).x = a.x - b.x := rfl

@[simp] theorem sub_y (a b : Vec3) : (a - b).y = a.y - b.y := rfl

@[simp] theorem sub_z (a b : Vec3) : (a - b).z = a.z - b.z := rfl

@[simp] theorem smul_x (c : ℚ) (a : Vec3) : (c • a).x = c * a.x := rfl

@[simp] theorem smul_y (c : ℚ) (a : Vec3) : (c • a).y = c * a.y := rfl

@[simp] theorem smul_z (c : ℚ) (a : Vec3) : (c • a).z = c * a.z := rfl

theorem ext_iff {a b : Vec3} : a = b ↔ a.x = b.x ∧ a.y = b.y ∧ a.z = b.z := by
  constructor
  · intro h; subst h; exact ⟨rfl, rfl, rfl⟩
  · rintro ⟨hx, hy, hz⟩; cases a; cases b; simp_all

theorem add_zero_v (a : Vec3) : a + 0 = a := by
  cases a; simp [ext_iff]

theorem zero_add_v (a : Vec3) : (0 : Vec3) + a = a := by
  cases a; simp [ext_iff]

theorem zero_smul_v (a : Vec3) : (0 : ℚ) • a = 0 := by
  cases a; simp [ext_iff]

end Vec3

/-- Modelled from the spec: the straight vortex filament of the absent
`aerodynamics` module (a `LineVortex`): an origin point and a termination
point; its strength is carried by the composite element that owns it. -/
structure LineVortex where
  origin : Vec3
  termination : Vec3
deriving DecidableEq

namespace LineVortex

/-- Modelled from the spec: the filament's derived midpoint attribute
(`center`). -/
def center (l : LineVortex) : Vec3 := ((1 : ℚ) / 2) • (l.origin + l.termination)

/-- Modelled from the spec: the filament's derived direction attribute
(`vector`), pointing from origin to termination. -/
def vector (l : LineVortex) : Vec3 := l.termination - l.origin

end LineVortex

/-- Modelled from the spec: the `RingVortex` of the absent `aerodynamics`
module: four connected finite legs (front, right, back, left) forming a closed
quadrilateral loop of constant strength, defined by its four vertices. -/
structure RingVortex where
  front_left_vertex : Vec3
  front_right_vertex : Vec3
  back_left_vertex : Vec3
  back_right_vertex : Vec3
  strength : ℚ
deriving DecidableEq

namespace RingVortex

/-- Modelled from the spec: the front leg of the quadrilateral loop, running
from the front right vertex to the front left vertex. -/
def front_leg (rv : RingVortex) : LineVortex :=
  ⟨rv.front_right_vertex, rv.front_left_vertex⟩

/-- Modelled from the spec: the left leg, running from the front left vertex
back to the back left vertex. -/
def left_leg (rv : RingVortex) : LineVortex :=
  ⟨rv.front_left_vertex, rv.back_left_vertex⟩

/-- Modelled from the spec: the back leg, running from the back left vertex to
the back right vertex. -/
def back_leg (rv : RingVortex) : LineVortex :=
  ⟨rv.back_left_vertex, rv.back_right_vertex⟩

/-- Modelled from the spec: the right leg, running from the back right vertex
forward to the front right vertex, closing the loop. -/
def right_leg (rv : RingVortex) : LineVortex :=
  ⟨rv.back_right_vertex, rv.front_right_vertex⟩

/-- Modelled from the spec: the ring vortex's center, the average of its four
defining vertices. -/
def center (rv : RingVortex) : Vec3 :=
  ((1 : ℚ) / 4) • (rv.front_left_vertex + rv.front_right_vertex
    + rv.back_left_vertex + rv.back_right_vertex)

/-- Modelled from the spec: `update_strength` sets the strength on the element
(and hence on all its constituent filaments). -/
def update_strength (rv : RingVortex) (s : ℚ) : RingVortex :=
  { rv with strength := s }

/-- Modelled from the spec: `update_position` replaces the four defining
vertices and recomputes all derived legs; the strength is untouched. -/
def update_position (rv : RingVortex)
    (front_left_vertex front_right_vertex back_left_vertex back_right_vertex :
      Vec3) : RingVortex :=
  { rv with
    front_left_vertex := front_left_vertex
    front_right_vertex := front_right_vertex
    back_left_vertex := back_left_vertex
    back_right_vertex := back_right_vertex }

/-- Modelled from the spec: `calculate_normalized_induced_velocity` is the sum
of each constituent filament's induced velocity assuming unit strength, with
the Biot-Savart kernel `K` of the absent `aerodynamics` module as a
parameter. -/
def normalizedInducedVelocity (K : LineVortex → Vec3 → Vec3) (rv : RingVortex)
    (point : Vec3) : Vec3 :=
  K rv.front_leg point + K rv.left_leg point + K rv.back_leg point
    + K rv.right_leg point

/-- Modelled from the spec: `calculate_induced_velocity` is the same sum scaled
by the actual current strength. -/
def inducedVelocity (K : LineVortex → Vec3 → Vec3) (rv : RingVortex)
    (point : Vec3) : Vec3 :=
  rv.strength • rv.normalizedInducedVelocity K point

end RingVortex

/-- Modelled from the spec: the `HorseshoeVortex` of the absent `aerodynamics`
module: one finite leg plus two legs sharing the finite leg's endpoints and
extending a fixed (large) length downstream along a fixed direction. -/
structure HorseshoeVortex where
  finite_leg_origin : Vec3
  finite_leg_termination : Vec3
  infinite_leg_direction : Vec3
  infinite_leg_length : ℚ
  strength : ℚ
deriving DecidableEq

namespace HorseshoeVortex

/-- Modelled from the spec: the horseshoe's finite leg. -/
def finite_leg (hv : HorseshoeVortex) : LineVortex :=
  ⟨hv.finite_leg_origin, hv.finite_leg_termination⟩

/-- Modelled from the spec: the downstream leg arriving at the finite leg's
origin. -/
def right_leg (hv : HorseshoeVortex) : LineVortex :=
  ⟨hv.finite_leg_origin + hv.infinite_leg_length • hv.infinite_leg_direction,
    hv.finite_leg_origin⟩

/-- Modelled from the spec: the downstream leg leaving the finite leg's
termination. -/
def left_leg (hv : HorseshoeVortex) : LineVortex :=
  ⟨hv.finite_leg_termination,
    hv.finite_leg_termination + hv.infinite_leg_length • hv.infinite_leg_direction⟩

/-- Modelled from the spec: `update_strength` for a horseshoe vortex. -/
def update_strength (hv : HorseshoeVortex) (s : ℚ) : HorseshoeVortex :=
  { hv with strength := s }

/-- Modelled from the spec: unit-strength induced velocity, summed over the
three constituent legs. -/
def normalizedInducedVelocity (K : LineVortex → Vec3 → Vec3)
    (hv : HorseshoeVortex) (point : Vec3) : Vec3 :=
  K hv.right_leg point + K hv.finite_leg point + K hv.left_leg point

/-- Modelled from the spec: induced velocity scaled by the actual strength. -/
def inducedVelocity (K : LineVortex → Vec3 → Vec3) (hv : HorseshoeVortex)
    (point : Vec3) : Vec3 :=
  hv.strength • hv.normalizedInducedVelocity K point

end HorseshoeVortex

/-- Modelled from the spec: the `Panel` of the absent `geometry` module: four
geometric vertices, a collocation point, a normal direction, an area, edge
flags, one bound ring vortex and an optional horseshoe vortex (trailing-edge
panels of the ring-vortex formulations). -/
structure Panel where
  front_left_vertex : Vec3
  front_right_vertex : Vec3
  back_left_vertex : Vec3
  back_right_vertex : Vec3
  collocation_point : Vec3
  normal_direction : Vec3
  area : ℚ
  is_leading_edge : Bool
  is_trailing_edge : Bool
  ring_vortex : RingVortex
  horseshoe_vortex : Option HorseshoeVortex
deriving DecidableEq

namespace Panel

/-- Modelled from the spec: a panel's unit-strength induced velocity is that of
its bound vortex elements (ring vortex, plus the horseshoe vortex when
present). -/
def normalizedInducedVelocity (K : LineVortex → Vec3 → Vec3) (p : Panel)
    (point : Vec3) : Vec3 :=
  p.ring_vortex.normalizedInducedVelocity K point +
    (match p.horseshoe_vortex with
      | some hv => hv.normalizedInducedVelocity K point
      | none => 0)

/-- Modelled from the spec: a panel's induced velocity at actual strengths. -/
def inducedVelocity (K : LineVortex → Vec3 → Vec3) (p : Panel)
    (point : Vec3) : Vec3 :=
  p.ring_vortex.inducedVelocity K point +
    (match p.horseshoe_vortex with
      | some hv => hv.inducedVelocity K point
      | none => 0)

end Panel

/-- Modelled from the spec: the `Wing` of the absent `geometry` module: an
ordered chordwise-by-spanwise grid of panels, plus (for the unsteady solver)
the wake-vertex grid and the wake ring-vortex grid.  The panel grid is a total
function; the solvers only ever read it at positions inside the declared
bounds. -/
structure Wing where
  num_chordwise_panels : ℕ
  num_spanwise_panels : ℕ
  panels : ℕ → ℕ → Panel
  wake_ring_vortex_vertices : List (List Vec3)
  wake_ring_vortices : List (List RingVortex)

/-- The raveled (row-major) index of panel `(c, s)` inside a single wing's
panel grid, as produced by `np.ravel` and by the explicit
`chordwise_position * num_spanwise_panels + spanwise_position` computation of
`calculate_freestream_wing_influences`. -/
def ravelIndex (ns c s : ℕ) : ℕ := c * ns + s

/-- A fallback ring vortex for out-of-range reads of dense wake grids. -/
def defaultRingVortex : RingVortex := ⟨0, 0, 0, 0, 0⟩

/-- A fallback panel for out-of-range wing lookups. -/
def defaultPanel : Panel :=
  ⟨0, 0, 0, 0, 0, 0, 0, false, false, defaultRingVortex, none⟩

/-- A fallback wing for out-of-range airplane lookups. -/
def defaultWing : Wing := ⟨0, 0, fun _ _ => defaultPanel, [], []⟩

/-- The sum of a wing's panels' induced velocities at a point: the
`for panel in np.ravel(wing.panels): velocity += panel.calculate_induced_velocity(point)`
loop shared by every solver's `calculate_solution_velocity`. -/
def Wing.panelsInducedVelocity (K : LineVortex → Vec3 → Vec3) (w : Wing)
    (point : Vec3) : Vec3 :=
  (List.range w.num_chordwise_panels).foldl
    (fun acc c =>
      (List.range w.num_spanwise_panels).foldl
        (fun acc2 s => acc2 + (w.panels c s).inducedVelocity K point) acc)
    0

/-- The sum of a wing's wake ring vortices' induced velocities at a point: the
wake loop of the unsteady solver's `calculate_solution_velocity` (entries are
dense here; the source's `is not None` guard skips only never-populated
slots). -/
def Wing.wakeInducedVelocity (K : LineVortex → Vec3 → Vec3) (w : Wing)
    (point : Vec3) : Vec3 :=
  w.wake_ring_vortices.foldl
    (fun acc row => row.foldl (fun acc2 rv => acc2 + rv.inducedVelocity K point) acc)
    0

/-- `SteadyRingVortexLatticeMethodSolver.calculate_solution_velocity` (also the
body of the horseshoe solver's same-named method): the sum of every panel's
induced velocity plus the freestream velocity in geometry axes. -/
def steadySolutionVelocity (K : LineVortex → Vec3 → Vec3) (wings : List Wing)
    (freestream : Vec3) (point : Vec3) : Vec3 :=
  wings.foldl (fun acc w => acc + w.panelsInducedVelocity K point) 0 + freestream

/-- `UnsteadyRingVortexLatticeMethodSolver.calculate_solution_velocity`: the
sum of every panel's and every wake ring vortex's induced velocity plus the
freestream velocity; flapping velocity is deliberately not included. -/
def unsteadySolutionVelocity (K : LineVortex → Vec3 → Vec3) (wings : List Wing)
    (freestream : Vec3) (point : Vec3) : Vec3 :=
  wings.foldl
    (fun acc w => acc + w.panelsInducedVelocity K point + w.wakeInducedVelocity K point)
    0 + freestream

/-- The bound-vortex leg strengths of panel `(c, s)` in the ring-vortex force
integrations (identical if-chains in
`SteadyRingVortexLatticeMethodSolver.calculate_near_field_forces_and_moments`
and the unsteady solver's same-named method): the triple is
`(right, front, left)`. -/
def ringLegStrengths (w : Wing) (c s : ℕ) : ℚ × ℚ × ℚ :=
  let panel := w.panels c s
  let right := if s + 1 = w.num_spanwise_panels then panel.ring_vortex.strength else 0
  let front :=
    if panel.is_leading_edge then panel.ring_vortex.strength
    else panel.ring_vortex.strength - (w.panels (c - 1) s).ring_vortex.strength
  let left :=
    if s = 0 then panel.ring_vortex.strength
    else panel.ring_vortex.strength - (w.panels c (s - 1)).ring_vortex.strength
  (right, front, left)

/-- The three per-leg near-field forces set by the steady ring solver's
`calculate_near_field_forces_and_moments` (lines 289-312) on panel `(c, s)`,
as the triple `(right_leg, front_leg, left_leg)`.  Faithful to the source, the
velocity for all three legs is taken at `panel.ring_vortex.right_leg.center`,
and a leg whose bound strength is zero is skipped (contributing no force,
which the spec calls a normal branch). -/
def steadyRingLegForces (K : LineVortex → Vec3 → Vec3) (wings : List Wing)
    (freestream : Vec3) (density : ℚ) (w : Wing) (c s : ℕ) :
    Vec3 × Vec3 × Vec3 :=
  let panel := w.panels c s
  let strengths := ringLegStrengths w c s
  let right :=
    if strengths.1 ≠ 0 then
      (density * strengths.1) •
        Vec3.cross (steadySolutionVelocity K wings freestream
            panel.ring_vortex.right_leg.center)
          panel.ring_vortex.right_leg.vector
    else 0
  let front :=
    if strengths.2.1 ≠ 0 then
      (density * strengths.2.1) •
        Vec3.cross (steadySolutionVelocity K wings freestream
            panel.ring_vortex.right_leg.center)
          panel.ring_vortex.front_leg.vector
    else 0
  let left :=
    if strengths.2.2 ≠ 0 then
      (density * strengths.2.2) •
        Vec3.cross (steadySolutionVelocity K wings freestream
            panel.ring_vortex.right_leg.center)
          panel.ring_vortex.left_leg.vector
    else 0
  (right, front, left)

/-- The three bound legs over which the near-field Kutta-Joukowski force is
integrated (the back leg is wake-side and excluded); this names the
`point_name` strings `ring_vortex.right_leg.center` and friends used by the
unsteady solver's flapping-velocity lookups. -/
inductive LegName
  | right
  | front
  | left
deriving DecidableEq

/-- The leg of a panel's ring vortex named by a `LegName`. -/
def namedLeg (p : Panel) : LegName → LineVortex
  | LegName.right => p.ring_vortex.right_leg
  | LegName.front => p.ring_vortex.front_leg
  | LegName.left => p.ring_vortex.left_leg

/-- The index of the airplane pose used as the previous step in the unsteady
solver's `calculate_near_field_forces_and_moments`: `step - 1` when
`step > 0`, and the current step itself at step 0. -/
def lastStepIndex (step : ℕ) : ℕ := if step > 0 then step - 1 else step

/-- The Kutta-Joukowski part of the unsteady solver's
`calculate_near_field_forces_and_moments` (lines 486-557) for panel `(c, s)`:
for each of the right, front, and left bound legs with nonzero strength, the
force `density * strength * cross(velocity, leg.vector)` with the velocity
taken as the solution velocity at that leg's own center plus the flapping
velocity `flap` looked up at that leg's center; a leg with zero strength is
skipped and contributes nothing. -/
def unsteadyBoundLegForces (K : LineVortex → Vec3 → Vec3) (wings : List Wing)
    (freestream : Vec3) (density : ℚ) (flap : LegName → Vec3)
    (w : Wing) (c s : ℕ) : Vec3 :=
  let panel := w.panels c s
  let strengths := ringLegStrengths w c s
  let right :=
    if strengths.1 ≠ 0 then
      (density * strengths.1) •
        Vec3.cross
          (unsteadySolutionVelocity K wings freestream
              panel.ring_vortex.right_leg.center + flap LegName.right)
          panel.ring_vortex.right_leg.vector
    else 0
  let front :=
    if strengths.2.1 ≠ 0 then
      (density * strengths.2.1) •
        Vec3.cross
          (unsteadySolutionVelocity K wings freestream
              panel.ring_vortex.front_leg.center + flap LegName.front)
          panel.ring_vortex.front_leg.vector
    else 0
  let left :=
    if strengths.2.2 ≠ 0 then
      (density * strengths.2.2) •
        Vec3.cross
          (unsteadySolutionVelocity K wings freestream
              panel.ring_vortex.left_leg.center + flap LegName.left)
          panel.ring_vortex.left_leg.vector
    else 0
  right + front + left

/-- The unsteady (added-mass) force of the unsteady solver's
`calculate_near_field_forces_and_moments` (lines 559-567) for panel `(c, s)`:
`density * (strength - last strength) * area * normal`, where the last
strength is read from the same panel of `lastW`, the previous step's pose of
the same wing (`last_airplane.wings[wing_num]`). -/
def unsteadyAddedMassForce (density : ℚ) (w lastW : Wing) (c s : ℕ) : Vec3 :=
  let panel := w.panels c s
  let last_panel := lastW.panels c s
  (density * (panel.ring_vortex.strength - last_panel.ring_vortex.strength)
      * panel.area) • panel.normal_direction

/-- The per-panel geometry-axes near-field force of the unsteady solver's
`calculate_near_field_forces_and_moments` (lines 457-571): the three bound-leg
Kutta-Joukowski contributions accumulated with the added-mass term. -/
def unsteadyPanelForce (K : LineVortex → Vec3 → Vec3) (wings : List Wing)
    (freestream : Vec3) (density : ℚ) (flap : LegName → Vec3)
    (w lastW : Wing) (c s : ℕ) : Vec3 :=
  unsteadyBoundLegForces K wings freestream density flap w c s
    + unsteadyAddedMassForce density w lastW c s

/-- The per-panel force at time step `step` of the run loop: the wing poses of
each step are `wingsOf`, the current pose is `wingsOf step`, and the previous
pose used for the circulation difference is `wingsOf (lastStepIndex step)`
(`last_airplane` in the source, lines 439-444). -/
def unsteadyPanelForceAtStep (K : LineVortex → Vec3 → Vec3)
    (wingsOf : ℕ → List Wing) (freestream : Vec3) (density : ℚ)
    (flap : LegName → Vec3) (wingNum step c s : ℕ) : Vec3 :=
  unsteadyPanelForce K (wingsOf step) freestream density flap
    ((wingsOf step).getD wingNum defaultWing)
    ((wingsOf (lastStepIndex step)).getD wingNum defaultWing) c s

/-- The per-panel geometry-axes near-field moment of the unsteady solver's
`calculate_near_field_forces_and_moments`: each leg's force contributes
`cross(leg.center - xyz_ref, force)`, and the added-mass term contributes
`cross(ring_vortex.center - xyz_ref, unsteady_force)`. -/
def unsteadyPanelMoment (K : LineVortex → Vec3 → Vec3) (wings : List Wing)
    (freestream : Vec3) (density : ℚ) (flap : LegName → Vec3) (xyzRef : Vec3)
    (w lastW : Wing) (c s : ℕ) : Vec3 :=
  let panel := w.panels c s
  let last_panel := lastW.panels c s
  let strengths := ringLegStrengths w c s
  let right :=
    if strengths.1 ≠ 0 then
      Vec3.cross (panel.ring_vortex.right_leg.center - xyzRef)
        ((density * strengths.1) •
          Vec3.cross
            (unsteadySolutionVelocity K wings freestream
                panel.ring_vortex.right_leg.center + flap LegName.right)
            panel.ring_vortex.right_leg.vector)
    else 0
  let front :=
    if strengths.2.1 ≠ 0 then
      Vec3.cross (panel.ring_vortex.front_leg.center - xyzRef)
        ((density * strengths.2.1) •
          Vec3.cross
            (unsteadySolutionVelocity K wings freestream
                panel.ring_vortex.front_leg.center + flap LegName.front)
            panel.ring_vortex.front_leg.vector)
    else 0
  let left :=
    if strengths.2.2 ≠ 0 then
      Vec3.cross (panel.ring_vortex.left_leg.center - xyzRef)
        ((density * strengths.2.2) •
          Vec3.cross
            (unsteadySolutionVelocity K wings freestream
                panel.ring_vortex.left_leg.center + flap LegName.left)
            panel.ring_vortex.left_leg.vector)
    else 0
  let unsteady_force :=
    (density * (panel.ring_vortex.strength - last_panel.ring_vortex.strength)
        * panel.area) • panel.normal_direction
  right + front + left +
    Vec3.cross (panel.ring_vortex.center - xyzRef) unsteady_force

/-- The exceptions that `calculate_vortex_strengths` can surface.
`linAlgError` models `numpy.linalg.LinAlgError`, which the external
`np.linalg.solve` routine raises exactly when the matrix is singular.
`geometryDegenerateError` is modelled from the spec: the
`GeometryDegenerateError` of the spec's error taxonomy, which no module of the
repository defines or raises. -/
inductive SolveException
  | linAlgError
  | geometryDegenerateError
deriving DecidableEq

/-- `np.linalg.solve(A, b)`, an external collaborator modelled from its
documented behaviour over exact arithmetic: raise `LinAlgError` when `A` is
singular, and otherwise return the unique solution of `A · x = b` (computed
here through the adjugate). -/
def linalgSolve {n : ℕ} (A : Matrix (Fin n) (Fin n) ℚ) (b : Fin n → ℚ) :
    Except SolveException (Fin n → ℚ) :=
  if A.det = 0 then Except.error SolveException.linAlgError
  else Except.ok (A.det⁻¹ • A.adjugate.mulVec b)

/-- A length-`n` numpy vector read at a (loop-produced, always in-range)
integer index. -/
def extendVec {n : ℕ} (v : Fin n → ℚ) : ℕ → ℚ :=
  fun i => if h : i < n then v ⟨i, h⟩ else 0

/-- The strength-scatter loop of `calculate_vortex_strengths`: for each panel
`(c, s)` of the wing (enumerated through `np.ndenumerate(np.ravel(...))`, so at
the within-wing raveled index), set its ring vortex's strength to the solved
vector's entry at that index, and, if the panel also owns a horseshoe vortex,
set the horseshoe's strength to the same entry. -/
def updateWingStrengths (gamma : ℕ → ℚ) (w : Wing) : Wing :=
  { w with
    panels := fun c s =>
      if c < w.num_chordwise_panels ∧ s < w.num_spanwise_panels then
        let p := w.panels c s
        { p with
          ring_vortex := p.ring_vortex.update_strength
            (gamma (ravelIndex w.num_spanwise_panels c s))
          horseshoe_vortex := p.horseshoe_vortex.map
            (fun hv => hv.update_strength
              (gamma (ravelIndex w.num_spanwise_panels c s))) }
      else w.panels c s }

/-- `UnsteadyRingVortexLatticeMethodSolver.calculate_vortex_strengths` (the
steady solvers' method is the special case with a zero wake-influence vector):
solve `AIC · Γ = -wake - freestream` with `np.linalg.solve`, then scatter `Γ`
back onto each wing's panels at their within-wing raveled indices.  Returns
the solved strength vector together with the updated wings. -/
def calculateVortexStrengths {n : ℕ} (A : Matrix (Fin n) (Fin n) ℚ)
    (freestreamInf wakeInf : Fin n → ℚ) (wings : List Wing) :
    Except SolveException ((Fin n → ℚ) × List Wing) :=
  match linalgSolve A (fun i => -wakeInf i - freestreamInf i) with
  | Except.error e => Except.error e
  | Except.ok gamma =>
      Except.ok (gamma, wings.map (updateWingStrengths (extendVec gamma)))

/-- A single write into a numpy influence vector. -/
def writeAt (v : ℕ → ℚ) (idx : ℕ) (x : ℚ) : ℕ → ℚ :=
  fun i => if i = idx then x else v i

/-- The double loop over one wing's chordwise and spanwise panel positions
shared by `calculate_freestream_wing_influences` and
`calculate_wake_wing_influences`: the value for panel `(c, s)` is stored at
`c * num_spanwise_panels + s`, with no offset for preceding wings. -/
def scatterWingInfluences (value : ℕ → ℕ → ℚ) (nc ns : ℕ) (v0 : ℕ → ℚ) :
    ℕ → ℚ :=
  (List.range nc).foldl
    (fun v c =>
      (List.range ns).foldl
        (fun v2 s => writeAt v2 (ravelIndex ns c s) (value c s)) v)
    v0

/-- The wing loop shared by the unsteady solver's influence-vector assemblies:
wings are visited in order by position, each scattering its panels' values
into the shared vector. -/
def influenceVectorAux (val : ℕ → Wing → ℕ → ℕ → ℚ) :
    ℕ → List Wing → (ℕ → ℚ) → (ℕ → ℚ)
  | _, [], v => v
  | wpos, w :: rest, v =>
      influenceVectorAux val (wpos + 1) rest
        (scatterWingInfluences (val wpos w) w.num_chordwise_panels
          w.num_spanwise_panels v)

/-- Assembly of an influence vector starting from `np.zeros(num_panels)`. -/
def assembleInfluenceVector (val : ℕ → Wing → ℕ → ℕ → ℚ) (wings : List Wing) :
    ℕ → ℚ :=
  influenceVectorAux val 0 wings (fun _ => 0)

/-- `UnsteadyRingVortexLatticeMethodSolver.calculate_freestream_wing_influences`:
the stored value for panel `(c, s)` of the wing at position `wpos` is the
freestream velocity plus the flapping velocity at the panel's collocation
point, dotted with the panel's normal direction.  `flap` is the
flapping-velocity lookup of the absent `performance` module
(`get_flapping_velocity_at_point_on_panel` at `collocation_point`). -/
def calculateFreestreamWingInfluences (freestream : Vec3)
    (flap : ℕ → ℕ → ℕ → Vec3) (wings : List Wing) : ℕ → ℚ :=
  assembleInfluenceVector
    (fun wpos w c s =>
      Vec3.dot (freestream + flap wpos c s) (w.panels c s).normal_direction)
    wings

/-- The wake-velocity sum of `calculate_wake_wing_influences`: every currently
existing wake ring vortex of every wing, evaluated at one collocation
point. -/
def totalWakeVelocity (K : LineVortex → Vec3 → Vec3) (wings : List Wing)
    (point : Vec3) : Vec3 :=
  wings.foldl (fun acc w => acc + w.wakeInducedVelocity K point) 0

/-- `UnsteadyRingVortexLatticeMethodSolver.calculate_wake_wing_influences`:
the stored value for panel `(c, s)` is the summed wake-induced velocity at the
panel's collocation point dotted with the panel's normal direction, stored at
the same offset-free index `c * num_spanwise_panels + s`. -/
def calculateWakeWingInfluences (K : LineVortex → Vec3 → Vec3)
    (wings : List Wing) : ℕ → ℚ :=
  assembleInfluenceVector
    (fun _ w c s =>
      Vec3.dot (totalWakeVelocity K wings (w.panels c s).collocation_point)
        (w.panels c s).normal_direction)
    wings

/-- The panel of a wing at a flat `np.ravel` index (row-major). -/
def Wing.panelAt (w : Wing) (i : ℕ) : Panel :=
  w.panels (i / w.num_spanwise_panels) (i % w.num_spanwise_panels)

/-- A single write into the numpy influence matrix. -/
def writeAt2 (m : ℕ → ℕ → ℚ) (i j : ℕ) (x : ℚ) : ℕ → ℕ → ℚ :=
  fun a b => if a = i ∧ b = j then x else m a b

/-- `UnsteadyRingVortexLatticeMethodSolver.calculate_wing_wing_influences`
(and the identical steady `set_up_geometry`): for every ordered pair of a
collocation panel and a vortex panel, each enumerated through
`np.ndenumerate(np.ravel(wing.panels))` so that its index restarts at zero for
every wing, store the vortex panel's unit-strength induced velocity at the
collocation point dotted with the collocation panel's normal. -/
def calculateWingWingInfluences (K : LineVortex → Vec3 → Vec3)
    (wings : List Wing) : ℕ → ℕ → ℚ :=
  wings.foldl
    (fun m cw =>
      (List.range (cw.num_chordwise_panels * cw.num_spanwise_panels)).foldl
        (fun m2 ci =>
          wings.foldl
            (fun m3 vw =>
              (List.range (vw.num_chordwise_panels * vw.num_spanwise_panels)).foldl
                (fun m4 vi =>
                  writeAt2 m4 ci vi
                    (Vec3.dot
                      ((vw.panelAt vi).normalizedInducedVelocity K
                        (cw.panelAt ci).collocation_point)
                      (cw.panelAt ci).normal_direction))
                m3)
            m2)
        m)
    (fun _ _ => 0)

/-- A vertex of a wake-vertex grid at row `r`, column `s` (dense grids, as the
wake state machine maintains them). -/
def vertexAt (g : List (List Vec3)) (r s : ℕ) : Vec3 := (g.getD r []).getD s 0

/-- The per-step inputs that `populate_next_airplanes_wake` reads from the rest
of the solver, projected out of the movement and the current/next airplane
poses: the step count and step size, the spanwise panel count of the wing, the
per-step freestream velocity, the next pose's trailing-edge panel back
vertices, the flapping velocities at those vertices
(`get_flapping_velocity_at_point_on_panel` of the absent `performance`
module), and the trailing-edge panels' solved circulations at each step. -/
structure WakeEnv where
  num_steps : ℕ
  delta_time : ℚ
  num_spanwise : ℕ
  freestream : ℕ → Vec3
  teBackLeft : ℕ → ℕ → Vec3
  teBackRight : ℕ → ℕ → Vec3
  flapBackLeft : ℕ → ℕ → Vec3
  flapBackRight : ℕ → ℕ → Vec3
  gamma : ℕ → ℕ → ℚ

/-- The new front row of wake vertices synthesized from the trailing edge in
`populate_next_airplanes_wake_vortex_vertices` (both its branches): entry `s`
for `s < n` is the next pose's trailing-edge panel `s`'s back left vertex
advected a quarter step by freestream plus flapping, and the extra final entry
comes from the last panel's back right vertex.  (For `n = 0` the spanwise loop
never runs and the `np.zeros((1, 1, 3))` row survives.) -/
def newWakeRow (env : WakeEnv) (k : ℕ) : List Vec3 :=
  let n := env.num_spanwise
  if n = 0 then [0]
  else
    (List.range n).map
      (fun s =>
        env.teBackLeft k s +
          (((1 : ℚ) / 4) * env.delta_time) • (env.freestream k + env.flapBackLeft k s))
    ++ [env.teBackRight k (n - 1) +
          (((1 : ℚ) / 4) * env.delta_time) •
            (env.freestream k + env.flapBackRight k (n - 1))]

/-- One wake-vertex row convected by a full step.  The convection velocity is
the freestream alone: in the source the free-wake alternative
(`calculate_solution_velocity` at the vertex) exists only as commented-out
code, so no knob selects it. -/
def convectRow (freestream : Vec3) (dt : ℚ) (row : List Vec3) : List Vec3 :=
  row.map (fun v => v + dt • freestream)

/-- `populate_next_airplanes_wake_vortex_vertices` (lines 688-871), acting on
one wing's wake-vertex grid.  At step 0 the trailing-edge row is stacked onto
the (empty) grid and a second row is appended by convecting one full step (the
source's double loop overwrites a single buffer row once per existing row, so
the appended row is the convection of the grid's last row, seeded with the
`np.zeros` buffer when the grid is empty).  At later steps every existing
vertex is convected by one step and the new trailing-edge row is stacked at
the front. -/
def populateWakeVertices (env : WakeEnv) (k : ℕ) (prev : List (List Vec3)) :
    List (List Vec3) :=
  if k = 0 then
    let grid1 := prev ++ [newWakeRow env 0]
    let second :=
      grid1.foldl (fun _acc row => convectRow (env.freestream 0) env.delta_time row)
        (List.replicate (env.num_spanwise + 1) (0 : Vec3))
    grid1 ++ [second]
  else
    newWakeRow env k ::
      prev.map (convectRow (env.freestream k) env.delta_time)

/-- `populate_next_airplanes_wake_vortices` (lines 874-943), acting on one
wing's wake-ring grid after the vertex grid has been rebuilt: a fresh empty
row is stacked in front of a deep copy of the current wake-ring grid; then row
0 is filled with newly shed ring vortices whose strength is copied from the
current pose's trailing-edge panel circulations (`gammaNow`), and every other
row `r ≥ 1` has its position updated to the vertex grid's rows `r` and `r + 1`
while its strength is untouched.  (The imperative loop only touches positions
with a back vertex, which for the dense grids maintained by the solver is
every row of the stacked grid.) -/
def populateWakeRings (verts : List (List Vec3))
    (prevRings : List (List RingVortex)) (gammaNow : ℕ → ℚ) :
    List (List RingVortex) :=
  let numRows := verts.length
  let numCols := (verts.getD 0 []).length
  (List.range (numRows - 1)).map
    (fun r =>
      (List.range (numCols - 1)).map
        (fun s =>
          if r = 0 then
            { front_left_vertex := vertexAt verts 0 s
              front_right_vertex := vertexAt verts 0 (s + 1)
              back_left_vertex := vertexAt verts 1 s
              back_right_vertex := vertexAt verts 1 (s + 1)
              strength := gammaNow s }
          else
            ((prevRings.getD (r - 1) []).getD s defaultRingVortex).update_position
              (vertexAt verts r s) (vertexAt verts r (s + 1))
              (vertexAt verts (r + 1) s) (vertexAt verts (r + 1) (s + 1))))

/-- One wing's wake state: the wake-vertex grid and the wake-ring grid, both
owned by the wing and rebuilt by `populate_next_airplanes_wake` into the next
pose's wing. -/
structure WakeState where
  vertices : List (List Vec3)
  rings : List (List RingVortex)

/-- The wake grids of a freshly meshed wing.  Modelled from the spec: the
absent `meshing` module creates the wake grids empty, and they grow by one row
every time step. -/
def initialWakeState : WakeState := ⟨[], []⟩

/-- `populate_next_airplanes_wake` at time step `k`: when `k` is not the last
step, rebuild the next pose's wake-vertex grid and then its wake-ring grid;
at the last step nothing is populated (`step < num_steps - 1` guards both
halves). -/
def wakeStep (env : WakeEnv) (k : ℕ) (st : WakeState) : WakeState :=
  if k + 1 < env.num_steps then
    let verts := populateWakeVertices env k st.vertices
    { vertices := verts
      rings := populateWakeRings verts st.rings (env.gamma k) }
  else st

/-- The wake of the step-`(k+1)` pose's wing: the initial (empty) wake pushed
through the wake population of steps `0, 1, …, k`. -/
def wakeAfter (env : WakeEnv) : ℕ → WakeState
  | 0 => wakeStep env 0 initialWakeState
  | k + 1 => wakeStep env (k + 1) (wakeAfter env k)

/-- The wake-model selection of the legacy unsteady solver
(`legacy_unsteady_ring_vortex_lattice_method.py`): the velocity used to
convect a wake vertex is the freestream when `prescribed_wake` is true and the
solution velocity at the vertex when it is false; the flag is a parameter of
`run` and is threaded to `populate_next_airplanes_wake_vortex_vertices`. -/
def legacyWakeVelocityAtVertex (prescribedWake : Bool) (freestream : Vec3)
    (solutionVelocity : Vec3 → Vec3) (vertex : Vec3) : Vec3 :=
  if prescribedWake then freestream else solutionVelocity vertex

/-- What the spec's words prescribe for wake convection (the refinement target
for the current solver): a wake-model-mode knob selecting the freestream
(prescribed) or the locally induced-plus-freestream solution velocity
(free). -/
inductive WakeModelMode
  | prescribed
  | free
deriving DecidableEq

/-- The spec-worded convection velocity, for comparison with the code. -/
def specWakeConvectionVelocity (mode : WakeModelMode) (freestream : Vec3)
    (solutionVelocity : Vec3 → Vec3) (vertex : Vec3) : Vec3 :=
  match mode with
  | WakeModelMode.prescribed => freestream
  | WakeModelMode.free => solutionVelocity vertex

/-- Explicit forward-Euler particle tracing: `numSteps` further points from a
seed, each one step of `dt` times the velocity at the previous point.  This is
the inner loop of every solver's `calculate_streamlines`. -/
def streamlineFrom (vel : Vec3 → Vec3) (dt : ℚ) : ℕ → Vec3 → List Vec3
  | 0, p => [p]
  | n + 1, p => p :: streamlineFrom vel dt n (p + dt • vel p)

/-- The seed point of the steady horseshoe solver's `calculate_streamlines`
(line 400) and of the steady ring solver's (line 337): the midpoint of the
trailing-edge panel's back edge. -/
def steadyStreamlineSeed (p : Panel) : Vec3 :=
  p.back_left_vertex + ((1 : ℚ) / 2) • (p.back_right_vertex - p.back_left_vertex)

/-- The seed point of the unsteady solver's `calculate_streamlines`
(lines 656-657): the center of the trailing-edge panel's ring vortex's back
leg, advected a quarter step downstream by the freestream. -/
def unsteadyStreamlineSeed (freestream : Vec3) (dtMovement : ℚ) (p : Panel) :
    Vec3 :=
  p.ring_vortex.back_leg.center + (dtMovement * ((1 : ℚ) / 4)) • freestream

/-- `SteadyHorseshoeVortexLatticeMethodSolver.calculate_streamlines`
(lines 373-416): per spanwise position at the trailing edge, 100 forward-Euler
steps of 0.01 s through the solution velocity, seeded at the panel's
back-edge midpoint; the result is the wing's streamline-point grid and nothing
else is written. -/
def horseshoeCalculateStreamlines (K : LineVortex → Vec3 → Vec3)
    (wings : List Wing) (freestream : Vec3) (w : Wing) : List (List Vec3) :=
  (List.range w.num_spanwise_panels).map
    (fun s =>
      streamlineFrom (steadySolutionVelocity K wings freestream) ((1 : ℚ) / 100)
        100 (steadyStreamlineSeed (w.panels (w.num_chordwise_panels - 1) s)))

/-- `UnsteadyRingVortexLatticeMethodSolver.calculate_streamlines`
(lines 626-673): per spanwise position at the trailing edge, `numSteps`
forward-Euler steps of `dt` (defaults 10 and 0.1 s) through the unsteady
solution velocity (vortices plus freestream, no flapping), seeded at the ring
vortex's back-leg center advected a quarter of the movement's `delta_time` by
the freestream. -/
def unsteadyCalculateStreamlines (K : LineVortex → Vec3 → Vec3)
    (wings : List Wing) (freestream : Vec3) (dtMovement : ℚ) (numSteps : ℕ)
    (dt : ℚ) (w : Wing) : List (List Vec3) :=
  (List.range w.num_spanwise_panels).map
    (fun s =>
      streamlineFrom (unsteadySolutionVelocity K wings freestream) dt numSteps
        (unsteadyStreamlineSeed freestream dtMovement
          (w.panels (w.num_chordwise_panels - 1) s)))

section HelperLemmas

theorem getD_mem {α : Type} (l : List α) (d : α) (i : ℕ) (h : i < l.length) :
    l.getD i d ∈ l := by
  induction l generalizing i with
  | nil => simp at h
  | cons a t ih =>
      cases i with
      | zero => simp [List.getD]
      | succ j =>
          simp only [List.getD_cons_succ]
          exact List.mem_cons_of_mem _ (ih j (by simpa using h))

theorem getD_map_range {α : Type} (f : ℕ → α) (m i : ℕ) (d : α) (h : i < m) :
    ((List.range m).map f).getD i d = f i := by
  rw [List.getD_eq_get?, List.get?_map, List.get?_range h]
  rfl

theorem newWakeRow_length (env : WakeEnv) (k : ℕ) :
    (newWakeRow env k).length = env.num_spanwise + 1 := by
  unfold newWakeRow
  by_cases h : env.num_spanwise = 0
  · simp [h]
  · simp [h]

theorem convectRow_length (f : Vec3) (dt : ℚ) (row : List Vec3) :
    (convectRow f dt row).length = row.length := by
  simp [convectRow]

theorem foldl_convect_length {n : ℕ} (f : Vec3) (dt : ℚ)
    (rows : List (List Vec3)) (a : List Vec3)
    (ha : a.length = n) (hrows : ∀ row ∈ rows, row.length = n) :
    (rows.foldl (fun _acc row => convectRow f dt row) a).length = n := by
  induction rows generalizing a with
  | nil => simpa using ha
  | cons r rs ih =>
      simp only [List.foldl_cons]
      apply ih
      · rw [convectRow_length]; exact hrows r (List.mem_cons_self r rs)
      · intro row hrow; exact hrows row (List.mem_cons_of_mem _ hrow)

theorem populateWakeVertices_length (env : WakeEnv) (k : ℕ)
    (prev : List (List Vec3)) :
    (populateWakeVertices env k prev).length =
      prev.length + (if k = 0 then 2 else 1) := by
  unfold populateWakeVertices
  by_cases h : k = 0
  · simp [h]
  · simp [h]

theorem populateWakeVertices_rows (env : WakeEnv) (k : ℕ)
    (prev : List (List Vec3))
    (hprev : ∀ row ∈ prev, row.length = env.num_spanwise + 1) :
    ∀ row ∈ populateWakeVertices env k prev,
      row.length = env.num_spanwise + 1 := by
  unfold populateWakeVertices
  by_cases h : k = 0
  · simp only [h, if_pos rfl]
    intro row hrow
    rcases List.mem_append.1 hrow with h1 | h2
    · rcases List.mem_append.1 h1 with h3 | h4
      · exact hprev row h3
      · rw [List.mem_singleton.1 h4]; exact newWakeRow_length env 0
    · rw [List.mem_singleton.1 h2]
      exact foldl_convect_length _ _ _ _ (by simp)
        (fun r hr => by
          rcases List.mem_append.1 hr with h3 | h4
          · exact hprev r h3
          · rw [List.mem_singleton.1 h4]; exact newWakeRow_length env 0)
  · simp only [h, if_neg h]
    intro row hrow
    rcases List.mem_cons.1 hrow with h1 | h2
    · rw [h1]; exact newWakeRow_length env k
    · obtain ⟨r, hr, rfl⟩ := List.mem_map.1 h2
      rw [convectRow_length]; exact hprev r hr

theorem populateWakeRings_length (verts : List (List Vec3))
    (prevRings : List (List RingVortex)) (gammaNow : ℕ → ℚ) :
    (populateWakeRings verts prevRings gammaNow).length = verts.length - 1 := by
  simp [populateWakeRings]

theorem populateWakeRings_rows (verts : List (List Vec3))
    (prevRings : List (List RingVortex)) (gammaNow : ℕ → ℚ) :
    ∀ row ∈ populateWakeRings verts prevRings gammaNow,
      row.length = (verts.getD 0 []).length - 1 := by
  intro row hrow
  simp only [populateWakeRings, List.mem_map, List.mem_range] at hrow
  obtain ⟨r, _, rfl⟩ := hrow
  simp

/-- The wake-grid shapes maintained by the wake state machine across the run:
after step `k` (not the last step) the vertex grid has `k + 2` rows of
`num_spanwise + 1` vertices and the ring grid has `k + 1` rows of
`num_spanwise` ring vortices. -/
theorem wakeAfter_shape (env : WakeEnv) (k : ℕ) (hk : k + 1 < env.num_steps) :
    (wakeAfter env k).vertices.length = k + 2 ∧
    (∀ row ∈ (wakeAfter env k).vertices, row.length = env.num_spanwise + 1) ∧
    (wakeAfter env k).rings.length = k + 1 ∧
    (∀ row ∈ (wakeAfter env k).rings, row.length = env.num_spanwise) := by
  induction k with
  | zero =>
      simp only [wakeAfter, wakeStep, if_pos hk]
      refine ⟨?_, ?_, ?_, ?_⟩
      · simp [initialWakeState, populateWakeVertices_length]
      · exact populateWakeVertices_rows env 0 [] (by simp)
      · rw [populateWakeRings_length, populateWakeVertices_length]
        simp [initialWakeState]
      · intro row hrow
        have h1 := populateWakeRings_rows _ _ _ row hrow
        have h2 : ((populateWakeVertices env 0 initialWakeState.vertices).getD 0 []).length
            = env.num_spanwise + 1 := by
          apply populateWakeVertices_rows env 0 [] (by simp)
          apply getD_mem
          rw [populateWakeVertices_length]
          simp [initialWakeState]
        rw [h1, h2]; simp
  | succ k ih =>
      have hk' : k + 1 < env.num_steps := by omega
      obtain ⟨hv, hrows, hr, hrrows⟩ := ih hk'
      simp only [wakeAfter, wakeStep, if_pos hk]
      have hlen : (populateWakeVertices env (k + 1) (wakeAfter env k).vertices).length
          = k + 3 := by
        rw [populateWakeVertices_length, hv]; simp
      have hrows' : ∀ row ∈ populateWakeVertices env (k + 1) (wakeAfter env k).vertices,
          row.length = env.num_spanwise + 1 :=
        populateWakeVertices_rows env (k + 1) _ hrows
      refine ⟨hlen, hrows', ?_, ?_⟩
      · rw [populateWakeRings_length, hlen]; omega
      · intro row hrow
        have h1 := populateWakeRings_rows _ _ _ row hrow
        have h2 : ((populateWakeVertices env (k + 1) (wakeAfter env k).vertices).getD 0 []).length
            = env.num_spanwise + 1 := by
          apply hrows'
          apply getD_mem
          rw [hlen]; omega
        rw [h1, h2]; simp

theorem strength_update_position (rv : RingVortex) (a b c d : Vec3) :
    (rv.update_position a b c d).strength = rv.strength := rfl

theorem populateWakeRings_entry (verts : List (List Vec3))
    (prevRings : List (List RingVortex)) (gammaNow : ℕ → ℚ) (r s : ℕ)
    (hr : r < verts.length - 1) (hs : s < (verts.getD 0 []).length - 1) :
    ((populateWakeRings verts prevRings gammaNow).getD r []).getD s
        defaultRingVortex
      = if r = 0 then
          { front_left_vertex := vertexAt verts 0 s
            front_right_vertex := vertexAt verts 0 (s + 1)
            back_left_vertex := vertexAt verts 1 s
            back_right_vertex := vertexAt verts 1 (s + 1)
            strength := gammaNow s }
        else
          ((prevRings.getD (r - 1) []).getD s defaultRingVortex).update_position
            (vertexAt verts r s) (vertexAt verts r (s + 1))
            (vertexAt verts (r + 1) s) (vertexAt verts (r + 1) (s + 1)) := by
  unfold populateWakeRings
  rw [getD_map_range _ _ _ _ hr, getD_map_range _ _ _ _ hs]

/-- Kelvin's circulation theorem, as maintained by the wake state machine:
after step `k`, the wake ring vortex in row `r` (shed at step `k - r`) has the
trailing-edge circulation of step `k - r` as its strength. -/
theorem wakeAfter_ring_strength (env : WakeEnv) (k : ℕ)
    (hk : k + 1 < env.num_steps) (r s : ℕ) (hr : r ≤ k)
    (hs : s < env.num_spanwise) :
    (((wakeAfter env k).rings.getD r []).getD s defaultRingVortex).strength
      = env.gamma (k - r) s := by
  induction k generalizing r with
  | zero =>
      have hr0 : r = 0 := Nat.le_zero.1 hr
      subst hr0
      simp only [wakeAfter, wakeStep, if_pos hk, initialWakeState]
      have hvlen : (populateWakeVertices env 0 []).length = 2 := by
        rw [populateWakeVertices_length]; simp
      have hclen : ((populateWakeVertices env 0 []).getD 0 []).length
          = env.num_spanwise + 1 := by
        apply populateWakeVertices_rows env 0 [] (by simp)
        apply getD_mem
        rw [hvlen]; omega
      rw [populateWakeRings_entry _ _ _ 0 s (by omega) (by omega)]
      simp
  | succ k ih =>
      have hk' : k + 1 < env.num_steps := by omega
      obtain ⟨hv, hrows, _, _⟩ := wakeAfter_shape env k hk'
      simp only [wakeAfter, wakeStep, if_pos hk]
      have hvlen : (populateWakeVertices env (k + 1) (wakeAfter env k).vertices).length
          = k + 3 := by
        rw [populateWakeVertices_length, hv]; simp
      have hclen : ((populateWakeVertices env (k + 1) (wakeAfter env k).vertices).getD 0 []).length
          = env.num_spanwise + 1 := by
        apply populateWakeVertices_rows env (k + 1) _ hrows
        apply getD_mem
        rw [hvlen]; omega
      rw [populateWakeRings_entry _ _ _ r s (by omega) (by omega)]
      cases r with
      | zero => simp
      | succ r' =>
          rw [if_neg (Nat.succ_ne_zero r')]
          rw [strength_update_position]
          simp only [Nat.add_sub_cancel]
          rw [ih hk' r' (by omega)]
          congr 1
          omega

end HelperLemmas

/-- A small concrete wake environment used to instantiate the wake-machine
theorems: four time steps, one spanwise panel, unit freestream. -/
def sampleWakeEnv : WakeEnv where
  num_steps := 4
  delta_time := 1
  num_spanwise := 1
  freestream := fun _ => ⟨1, 0, 0⟩
  teBackLeft := fun _ _ => ⟨0, 0, 0⟩
  teBackRight := fun _ _ => ⟨0, 1, 0⟩
  flapBackLeft := fun _ _ => ⟨0, 0, 0⟩
  flapBackRight := fun _ _ => ⟨0, 0, 0⟩
  gamma := fun k _ => (k : ℚ) + 1

/-- C3: after the wake population of step `k` (any step but the last), the
wing's wake-vertex grid has exactly `k + 2` rows of `num_spanwise + 1`
vertices, its wake-ring grid has exactly `k + 1` rows of `num_spanwise` ring
vortices, and the grids always satisfy `rows(vertices) = rows(rings) + 1` and
`cols(vertices) = cols(rings) + 1`. -/
theorem claim_c3_wake_grid_shapes (env : WakeEnv) (k : ℕ)
    (hk : k + 1 < env.num_steps) :
    (wakeAfter env k).vertices.length = k + 2 ∧
    (∀ row ∈ (wakeAfter env k).vertices, row.length = env.num_spanwise + 1) ∧
    (wakeAfter env k).rings.length = k + 1 ∧
    (∀ row ∈ (wakeAfter env k).rings, row.length = env.num_spanwise) ∧
    (wakeAfter env k).vertices.length = (wakeAfter env k).rings.length + 1 ∧
    (∀ vrow ∈ (wakeAfter env k).vertices, ∀ rrow ∈ (wakeAfter env k).rings,
      vrow.length = rrow.length + 1) := by
  obtain ⟨h1, h2, h3, h4⟩ := wakeAfter_shape env k hk
  exact ⟨h1, h2, h3, h4, by rw [h1, h3], fun vrow hv rrow hr => by
    rw [h2 vrow hv, h4 rrow hr]⟩

/-- Witness for C3 at a concrete environment and step. -/
theorem claim_c3_wake_grid_shapes_witness :
    1 + 1 < sampleWakeEnv.num_steps ∧
    ((wakeAfter sampleWakeEnv 1).vertices.length = 1 + 2 ∧
    (∀ row ∈ (wakeAfter sampleWakeEnv 1).vertices,
      row.length = sampleWakeEnv.num_spanwise + 1) ∧
    (wakeAfter sampleWakeEnv 1).rings.length = 1 + 1 ∧
    (∀ row ∈ (wakeAfter sampleWakeEnv 1).rings,
      row.length = sampleWakeEnv.num_spanwise) ∧
    (wakeAfter sampleWakeEnv 1).vertices.length
      = (wakeAfter sampleWakeEnv 1).rings.length + 1 ∧
    (∀ vrow ∈ (wakeAfter sampleWakeEnv 1).vertices,
      ∀ rrow ∈ (wakeAfter sampleWakeEnv 1).rings,
        vrow.length = rrow.length + 1)) :=
  ⟨by decide, claim_c3_wake_grid_shapes sampleWakeEnv 1 (by decide)⟩

/-- C2: after the wake population of step `k`, the wake ring vortex in row `r`
of the ring grid carries exactly the circulation its shedding trailing-edge
panel had at the step it was shed (`k - r`), and a later wake population
changes it only through `update_position`, which replaces its vertices and
keeps its strength. -/
theorem claim_c2_wake_strengths_frozen (env : WakeEnv) (k r s : ℕ)
    (hk : k + 1 < env.num_steps) (hr : r ≤ k) (hs : s < env.num_spanwise) :
    (((wakeAfter env k).rings.getD r []).getD s defaultRingVortex).strength
        = env.gamma (k - r) s ∧
    (k + 2 < env.num_steps →
      ∃ fl fr bl br,
        ((wakeAfter env (k + 1)).rings.getD (r + 1) []).getD s defaultRingVortex
          = (((wakeAfter env k).rings.getD r []).getD s
              defaultRingVortex).update_position fl fr bl br) := by
  refine ⟨wakeAfter_ring_strength env k hk r s hr hs, ?_⟩
  intro hk2
  obtain ⟨hv, hrows, _, _⟩ := wakeAfter_shape env k hk
  have hvlen : (populateWakeVertices env (k + 1) (wakeAfter env k).vertices).length
      = k + 3 := by
    rw [populateWakeVertices_length, hv]; simp
  have hclen : ((populateWakeVertices env (k + 1) (wakeAfter env k).vertices).getD 0 []).length
      = env.num_spanwise + 1 := by
    apply populateWakeVertices_rows env (k + 1) _ hrows
    apply getD_mem
    rw [hvlen]; omega
  refine ⟨vertexAt (populateWakeVertices env (k + 1) (wakeAfter env k).vertices)
      (r + 1) s,
    vertexAt (populateWakeVertices env (k + 1) (wakeAfter env k).vertices)
      (r + 1) (s + 1),
    vertexAt (populateWakeVertices env (k + 1) (wakeAfter env k).vertices)
      (r + 1 + 1) s,
    vertexAt (populateWakeVertices env (k + 1) (wakeAfter env k).vertices)
      (r + 1 + 1) (s + 1), ?_⟩
  show ((wakeStep env (k + 1) (wakeAfter env k)).rings.getD (r + 1) []).getD s
      defaultRingVortex = _
  simp only [wakeStep, if_pos hk2]
  rw [populateWakeRings_entry _ _ _ (r + 1) s (by omega) (by omega),
    if_neg (Nat.succ_ne_zero r), Nat.add_sub_cancel]

/-- Witness for C2 at a concrete environment, step, row, and column. -/
theorem claim_c2_wake_strengths_frozen_witness :
    (1 + 1 < sampleWakeEnv.num_steps ∧ 1 ≤ 1 ∧ 0 < sampleWakeEnv.num_spanwise) ∧
    ((((wakeAfter sampleWakeEnv 1).rings.getD 1 []).getD 0
        defaultRingVortex).strength = sampleWakeEnv.gamma (1 - 1) 0 ∧
    (1 + 2 < sampleWakeEnv.num_steps →
      ∃ fl fr bl br,
        ((wakeAfter sampleWakeEnv (1 + 1)).rings.getD (1 + 1) []).getD 0
            defaultRingVortex
          = (((wakeAfter sampleWakeEnv 1).rings.getD 1 []).getD 0
              defaultRingVortex).update_position fl fr bl br)) :=
  ⟨⟨by decide, le_refl 1, by decide⟩,
    claim_c2_wake_strengths_frozen sampleWakeEnv 1 1 0 (by decide) (le_refl 1)
      (by decide)⟩

/-- C7: in the unsteady solver, every panel's near-field force is the
bound-leg Kutta-Joukowski sum plus the added-mass term
`density * (Γ_now - Γ_previous_step) * area * normal`, where `Γ_previous_step`
is the same panel's ring-vortex strength in the previous step's pose; the
previous step of step 0 is step 0 itself, so the term is exactly zero on the
first step. -/
theorem claim_c7_added_mass_term (K : LineVortex → Vec3 → Vec3)
    (wingsOf : ℕ → List Wing) (freestream : Vec3) (density : ℚ)
    (flap : LegName → Vec3) (wingNum step c s : ℕ) :
    unsteadyPanelForceAtStep K wingsOf freestream density flap wingNum step c s
      = unsteadyBoundLegForces K (wingsOf step) freestream density flap
          ((wingsOf step).getD wingNum defaultWing) c s
        + (density *
            ((((wingsOf step).getD wingNum defaultWing).panels c
                s).ring_vortex.strength
              - (((wingsOf (lastStepIndex step)).getD wingNum
                  defaultWing).panels c s).ring_vortex.strength)
            * (((wingsOf step).getD wingNum defaultWing).panels c s).area)
          • (((wingsOf step).getD wingNum defaultWing).panels c
              s).normal_direction ∧
    (0 < step → lastStepIndex step = step - 1) ∧
    (step = 0 →
      unsteadyAddedMassForce density ((wingsOf 0).getD wingNum defaultWing)
          ((wingsOf (lastStepIndex 0)).getD wingNum defaultWing) c s = 0 ∧
      unsteadyPanelForceAtStep K wingsOf freestream density flap wingNum 0 c s
        = unsteadyBoundLegForces K (wingsOf 0) freestream density flap
            ((wingsOf 0).getD wingNum defaultWing) c s) := by
  refine ⟨rfl, ?_, ?_⟩
  · intro h
    simp [lastStepIndex, h]
  · intro _
    have hzero : unsteadyAddedMassForce density
        ((wingsOf 0).getD wingNum defaultWing)
        ((wingsOf (lastStepIndex 0)).getD wingNum defaultWing) c s = 0 := by
      simp only [lastStepIndex, lt_irrefl, if_neg, ite_self]
      unfold unsteadyAddedMassForce
      simp only [sub_self, mul_zero, zero_mul]
      exact Vec3.zero_smul_v _
    refine ⟨hzero, ?_⟩
    show unsteadyPanelForce K (wingsOf 0) freestream density flap
        ((wingsOf 0).getD wingNum defaultWing)
        ((wingsOf (lastStepIndex 0)).getD wingNum defaultWing) c s = _
    unfold unsteadyPanelForce
    rw [hzero, Vec3.add_zero_v]

/-- Witness for C7: the previous-step index of step 1 is step 0, and the
added-mass term vanishes at step 0, at concrete trivial inputs. -/
theorem claim_c7_added_mass_term_witness :
    (0 < 1 ∧ lastStepIndex 1 = 1 - 1) ∧
    ((0 : ℕ) = 0 ∧
      (unsteadyAddedMassForce 1 (([] : List Wing).getD 0 defaultWing)
          (([] : List Wing).getD 0 defaultWing) 0 0 = 0 ∧
        unsteadyPanelForceAtStep (fun _ _ => 0) (fun _ => []) 0 1
            (fun _ => 0) 0 0 0 0
          = unsteadyBoundLegForces (fun _ _ => 0) [] 0 1 (fun _ => 0)
              (([] : List Wing).getD 0 defaultWing) 0 0)) :=
  ⟨⟨Nat.one_pos,
      (claim_c7_added_mass_term (fun _ _ => 0) (fun _ => []) 0 1 (fun _ => 0)
          0 1 0 0).2.1 Nat.one_pos⟩,
    ⟨rfl,
      (claim_c7_added_mass_term (fun _ _ => 0) (fun _ => []) 0 1 (fun _ => 0)
          0 0 0 0).2.2 rfl⟩⟩

/-- A one-chordwise by two-spanwise wing whose two panels carry different
circulations (3 and 5), exhibiting an interior spanwise leg. -/
def twoSpanWing : Wing where
  num_chordwise_panels := 1
  num_spanwise_panels := 2
  panels := fun _ s =>
    if s = 0 then
      { defaultPanel with ring_vortex := { defaultRingVortex with strength := 3 } }
    else
      { defaultPanel with ring_vortex := { defaultRingVortex with strength := 5 } }
  wake_ring_vortex_vertices := []
  wake_ring_vortices := []

/-- Counterexample to C6 as stated: the right leg of panel `(0, 0)` of
`twoSpanWing` is an interior leg shared with panel `(0, 1)`; the claim gives
it effective circulation `3 - 5 = -2`, but the code assigns interior right
legs the effective circulation `0` (the shared leg is accounted once, through
the right neighbour's left leg). -/
theorem claim_c6_counterexample :
    0 + 1 ≠ twoSpanWing.num_spanwise_panels ∧
    (ringLegStrengths twoSpanWing 0 0).1 = 0 ∧
    (twoSpanWing.panels 0 0).ring_vortex.strength
      - (twoSpanWing.panels 0 1).ring_vortex.strength = -2 ∧
    (ringLegStrengths twoSpanWing 0 0).1
      ≠ (twoSpanWing.panels 0 0).ring_vortex.strength
        - (twoSpanWing.panels 0 1).ring_vortex.strength := by
  have h2 : (ringLegStrengths twoSpanWing 0 0).1 = 0 := by
    simp [ringLegStrengths, twoSpanWing]
  have h3 : (twoSpanWing.panels 0 0).ring_vortex.strength
      - (twoSpanWing.panels 0 1).ring_vortex.strength = -2 := by
    norm_num [twoSpanWing]
  exact ⟨by decide, h2, h3, by rw [h2, h3]; norm_num⟩

/-- A simple concrete Biot-Savart stand-in kernel: every filament induces the
evaluation point itself, making the solution velocity vary with position. -/
def sampleKernel : LineVortex → Vec3 → Vec3 := fun _ p => p

/-- A concrete unit-strength ring vortex on the unit square in the x-y
plane. -/
def squareRing : RingVortex where
  front_left_vertex := ⟨0, 1, 0⟩
  front_right_vertex := ⟨0, 0, 0⟩
  back_left_vertex := ⟨1, 1, 0⟩
  back_right_vertex := ⟨1, 0, 0⟩
  strength := 1

/-- A concrete leading-and-trailing-edge panel carrying `squareRing`. -/
def squarePanel : Panel where
  front_left_vertex := ⟨0, 1, 0⟩
  front_right_vertex := ⟨0, 0, 0⟩
  back_left_vertex := ⟨1, 1, 0⟩
  back_right_vertex := ⟨1, 0, 0⟩
  collocation_point := ⟨3/4, 1/2, 0⟩
  normal_direction := ⟨0, 0, 1⟩
  area := 1
  is_leading_edge := true
  is_trailing_edge := true
  ring_vortex := squareRing
  horseshoe_vortex := none

/-- A one-panel wing holding `squarePanel`. -/
def squareWing : Wing := ⟨1, 1, fun _ _ => squarePanel, [], []⟩

/-- C1 as a failing-input evaluation: in the steady ring solver's
`calculate_near_field_forces_and_moments`, the front-leg Kutta-Joukowski force
of `squarePanel` is computed from the solution velocity at the RIGHT leg's
center (faithful to source lines 297-304, where
`velocity_at_front_bound_vortex_center` is assigned
`calculate_solution_velocity(panel.ring_vortex.right_leg.center)`), and at
this input that differs from the force the claim prescribes, which uses the
front leg's own midpoint.  (The unsteady solver's same-named method does use
each leg's own center, source lines 489-557.) -/
theorem squareWing_solution_velocity (p : Vec3) :
    steadySolutionVelocity sampleKernel [squareWing] 0 p = (4 : ℚ) • p := by
  simp only [steadySolutionVelocity, Wing.panelsInducedVelocity, squareWing,
    Panel.inducedVelocity, squarePanel, squareRing, RingVortex.inducedVelocity,
    RingVortex.normalizedInducedVelocity, sampleKernel, List.range_succ,
    List.range_zero, List.nil_append, List.foldl_cons, List.foldl_nil]
  rw [Vec3.ext_iff]
  refine ⟨?_, ?_, ?_⟩ <;> (simp; try ring)

theorem squareRing_front_strength :
    (ringLegStrengths squareWing 0 0).2.1 = 1 := by
  simp [ringLegStrengths, squareWing, squarePanel, squareRing]

theorem claim_c1_steady_ring_leg_velocity_point :
    (steadyRingLegForces sampleKernel [squareWing] 0 1 squareWing 0 0).2.1
      = (1 * (ringLegStrengths squareWing 0 0).2.1) •
          Vec3.cross
            (steadySolutionVelocity sampleKernel [squareWing] 0
              squarePanel.ring_vortex.right_leg.center)
            squarePanel.ring_vortex.front_leg.vector ∧
    (steadyRingLegForces sampleKernel [squareWing] 0 1 squareWing 0 0).2.1
      ≠ (1 * (ringLegStrengths squareWing 0 0).2.1) •
          Vec3.cross
            (steadySolutionVelocity sampleKernel [squareWing] 0
              squarePanel.ring_vortex.front_leg.center)
            squarePanel.ring_vortex.front_leg.vector := by
  have hrc : squarePanel.ring_vortex.right_leg.center = ⟨1/2, 0, 0⟩ := by
    rw [Vec3.ext_iff]
    norm_num [squarePanel, squareRing, RingVortex.right_leg, LineVortex.center]
  have hfc : squarePanel.ring_vortex.front_leg.center = ⟨0, 1/2, 0⟩ := by
    rw [Vec3.ext_iff]
    norm_num [squarePanel, squareRing, RingVortex.front_leg, LineVortex.center]
  have hfv : squarePanel.ring_vortex.front_leg.vector = ⟨0, 1, 0⟩ := by
    rw [Vec3.ext_iff]
    norm_num [squarePanel, squareRing, RingVortex.front_leg, LineVortex.vector]
  have hclaimRight : (1 * (ringLegStrengths squareWing 0 0).2.1) •
      Vec3.cross
        (steadySolutionVelocity sampleKernel [squareWing] 0
          squarePanel.ring_vortex.right_leg.center)
        squarePanel.ring_vortex.front_leg.vector = ⟨0, 0, 2⟩ := by
    rw [squareRing_front_strength, hrc, hfv, squareWing_solution_velocity,
      Vec3.ext_iff]
    norm_num [Vec3.cross]
  have hclaimFront : (1 * (ringLegStrengths squareWing 0 0).2.1) •
      Vec3.cross
        (steadySolutionVelocity sampleKernel [squareWing] 0
          squarePanel.ring_vortex.front_leg.center)
        squarePanel.ring_vortex.front_leg.vector = ⟨0, 0, 0⟩ := by
    rw [squareRing_front_strength, hfc, hfv, squareWing_solution_velocity,
      Vec3.ext_iff]
    norm_num [Vec3.cross]
  have hcode : (steadyRingLegForces sampleKernel [squareWing] 0 1 squareWing
      0 0).2.1 = ⟨0, 0, 2⟩ := by
    have hfront : (steadyRingLegForces sampleKernel [squareWing] 0 1 squareWing
        0 0).2.1
        = (1 * (ringLegStrengths squareWing 0 0).2.1) •
          Vec3.cross
            (steadySolutionVelocity sampleKernel [squareWing] 0
              (squareWing.panels 0 0).ring_vortex.right_leg.center)
            (squareWing.panels 0 0).ring_vortex.front_leg.vector := by
      simp only [steadyRingLegForces]
      rw [if_pos]
      rw [squareRing_front_strength]
      norm_num
    simpa using hfront.trans (by simpa using hclaimRight)
  refine ⟨by rw [hcode]; exact hclaimRight.symm, ?_⟩
  rw [hcode, hclaimFront]
  simp [Vec3.ext_iff]


/-- C6 (amended): in the ring-vortex force integrations (steady ring and
unsteady solvers), a panel's front and left bound legs have effective
circulation equal to the panel's strength minus the neighbour sharing the leg,
or the full panel strength on the wing's leading or left boundary; the right
leg has the full panel strength on the wing's right boundary and exactly zero
otherwise (interior spanwise legs being accounted once, through the right
neighbour's left leg); legs with zero effective circulation contribute no
force, as a normal branch. -/
theorem claim_c6_effective_leg_circulations (K : LineVortex → Vec3 → Vec3)
    (wings : List Wing) (freestream : Vec3) (density : ℚ)
    (flap : LegName → Vec3) (w : Wing) (c s : ℕ) :
    (ringLegStrengths w c s
      = (if s + 1 = w.num_spanwise_panels
            then (w.panels c s).ring_vortex.strength else 0,
         if (w.panels c s).is_leading_edge
            then (w.panels c s).ring_vortex.strength
            else (w.panels c s).ring_vortex.strength
              - (w.panels (c - 1) s).ring_vortex.strength,
         if s = 0 then (w.panels c s).ring_vortex.strength
            else (w.panels c s).ring_vortex.strength
              - (w.panels c (s - 1)).ring_vortex.strength)) ∧
    ((ringLegStrengths w c s).1 = 0 →
      (steadyRingLegForces K wings freestream density w c s).1 = 0) ∧
    ((ringLegStrengths w c s).2.1 = 0 →
      (steadyRingLegForces K wings freestream density w c s).2.1 = 0) ∧
    ((ringLegStrengths w c s).2.2 = 0 →
      (steadyRingLegForces K wings freestream density w c s).2.2 = 0) ∧
    (ringLegStrengths w c s = (0, 0, 0) →
      unsteadyBoundLegForces K wings freestream density flap w c s = 0) := by
  refine ⟨rfl, ?_, ?_, ?_, ?_⟩
  · intro h
    simp [steadyRingLegForces, h]
  · intro h
    simp [steadyRingLegForces, h]
  · intro h
    simp [steadyRingLegForces, h]
  · intro h
    simp only [unsteadyBoundLegForces, h]
    norm_num
    rw [Vec3.add_zero_v, Vec3.add_zero_v]

/-- Witness for C6 at a concrete wing whose leg circulations are all zero. -/
theorem claim_c6_effective_leg_circulations_witness :
    ((ringLegStrengths defaultWing 0 0).1 = 0 ∧
      (ringLegStrengths defaultWing 0 0).2.1 = 0 ∧
      (ringLegStrengths defaultWing 0 0).2.2 = 0 ∧
      ringLegStrengths defaultWing 0 0 = (0, 0, 0)) ∧
    ((steadyRingLegForces (fun _ _ => 0) [] 0 1 defaultWing 0 0).1 = 0 ∧
      (steadyRingLegForces (fun _ _ => 0) [] 0 1 defaultWing 0 0).2.1 = 0 ∧
      (steadyRingLegForces (fun _ _ => 0) [] 0 1 defaultWing 0 0).2.2 = 0 ∧
      unsteadyBoundLegForces (fun _ _ => 0) [] 0 1 (fun _ => 0) defaultWing
        0 0 = 0) := by
  have h1 : (ringLegStrengths defaultWing 0 0).1 = 0 := by
    norm_num [ringLegStrengths, defaultWing, defaultPanel, defaultRingVortex]
  have h2 : (ringLegStrengths defaultWing 0 0).2.1 = 0 := by
    norm_num [ringLegStrengths, defaultWing, defaultPanel, defaultRingVortex]
  have h3 : (ringLegStrengths defaultWing 0 0).2.2 = 0 := by
    norm_num [ringLegStrengths, defaultWing, defaultPanel, defaultRingVortex]
  have h4 : ringLegStrengths defaultWing 0 0 = (0, 0, 0) := by
    norm_num [ringLegStrengths, defaultWing, defaultPanel, defaultRingVortex]
  have hc6 := claim_c6_effective_leg_circulations (fun _ _ => 0) [] 0 1
    (fun _ => 0) defaultWing 0 0
  exact ⟨⟨h1, h2, h3, h4⟩,
    hc6.2.1 h1, hc6.2.2.1 h2, hc6.2.2.2.1 h3, hc6.2.2.2.2 h4⟩

/-- Counterexample to C4 as stated: on a singular (zero) influence matrix,
`calculate_vortex_strengths` surfaces numpy's `LinAlgError` from
`np.linalg.solve`; no `GeometryDegenerateError` exists anywhere in the
repository, so the raised error is not a `GeometryDegenerateError`. -/
theorem claim_c4_counterexample :
    calculateVortexStrengths (0 : Matrix (Fin 1) (Fin 1) ℚ) (fun _ => 1)
        (fun _ => 0) []
      = Except.error SolveException.linAlgError ∧
    SolveException.linAlgError ≠ SolveException.geometryDegenerateError := by
  constructor
  · simp [calculateVortexStrengths, linalgSolve, Matrix.det_fin_one]
  · decide

/-- C4 (amended): `calculate_vortex_strengths` lets `np.linalg.solve` raise
`numpy.linalg.LinAlgError` exactly when the assembled matrix is singular
(aborting the step), and raises nothing at all otherwise; no
`GeometryDegenerateError` is ever produced.  (Float near-singularity without
exact singularity is outside this exact-arithmetic embedding.) -/
theorem claim_c4_singular_matrix_error {n : ℕ}
    (A : Matrix (Fin n) (Fin n) ℚ) (fInf wInf : Fin n → ℚ)
    (wings : List Wing) :
    (A.det = 0 →
      calculateVortexStrengths A fInf wInf wings
        = Except.error SolveException.linAlgError) ∧
    (A.det ≠ 0 →
      ∀ e, calculateVortexStrengths A fInf wInf wings ≠ Except.error e) := by
  constructor
  · intro h
    simp [calculateVortexStrengths, linalgSolve, h]
  · intro h e
    simp [calculateVortexStrengths, linalgSolve, h]

/-- Witness for C4: the zero matrix is singular and yields `LinAlgError`; the
identity matrix is nonsingular and yields no error. -/
theorem claim_c4_singular_matrix_error_witness :
    ((0 : Matrix (Fin 1) (Fin 1) ℚ).det = 0 ∧
      calculateVortexStrengths (0 : Matrix (Fin 1) (Fin 1) ℚ) (fun _ => 1)
          (fun _ => 0) []
        = Except.error SolveException.linAlgError) ∧
    ((1 : Matrix (Fin 1) (Fin 1) ℚ).det ≠ 0 ∧
      ∀ e, calculateVortexStrengths (1 : Matrix (Fin 1) (Fin 1) ℚ)
          (fun _ => 1) (fun _ => 0) [] ≠ Except.error e) :=
  ⟨⟨by simp [Matrix.det_fin_one],
      (claim_c4_singular_matrix_error (0 : Matrix (Fin 1) (Fin 1) ℚ)
          (fun _ => 1) (fun _ => 0) []).1 (by simp [Matrix.det_fin_one])⟩,
    ⟨by simp,
      (claim_c4_singular_matrix_error (1 : Matrix (Fin 1) (Fin 1) ℚ)
          (fun _ => 1) (fun _ => 0) []).2 (by simp)⟩⟩

/-- Counterexample to C8 as stated: in the current unsteady solver, wake
vertices are always convected with the freestream velocity alone (the
free-wake line is commented out), and at this concrete state the free-wake
convection the claim declares selectable would move the vertex elsewhere, so
no knob on the current solver produces it. -/
theorem claim_c8_counterexample :
    (populateWakeVertices sampleWakeEnv 1 [[⟨0, 0, 1⟩]]).getD 1 []
      = [⟨0, 0, 1⟩ + sampleWakeEnv.delta_time • sampleWakeEnv.freestream 1] ∧
    (⟨0, 0, 1⟩ : Vec3) + sampleWakeEnv.delta_time •
        specWakeConvectionVelocity WakeModelMode.free
          (sampleWakeEnv.freestream 1)
          (unsteadySolutionVelocity sampleKernel [squareWing]
            (sampleWakeEnv.freestream 1)) ⟨0, 0, 1⟩
      ≠ (⟨0, 0, 1⟩ : Vec3) + sampleWakeEnv.delta_time •
          sampleWakeEnv.freestream 1 := by
  constructor
  · simp [populateWakeVertices, convectRow]
  · have hsol : unsteadySolutionVelocity sampleKernel [squareWing]
        (sampleWakeEnv.freestream 1) ⟨0, 0, 1⟩ = ⟨1, 0, 4⟩ := by
      simp only [unsteadySolutionVelocity, Wing.panelsInducedVelocity,
        Wing.wakeInducedVelocity, squareWing, Panel.inducedVelocity,
        squarePanel, squareRing, RingVortex.inducedVelocity,
        RingVortex.normalizedInducedVelocity, sampleKernel, sampleWakeEnv,
        List.range_succ, List.range_zero, List.nil_append, List.foldl_cons,
        List.foldl_nil]
      rw [Vec3.ext_iff]
      refine ⟨?_, ?_, ?_⟩ <;> (simp; try ring)
    simp only [specWakeConvectionVelocity, hsol]
    rw [Ne, Vec3.ext_iff]
    simp [sampleWakeEnv]

theorem foldl_convect_eq_last (f : Vec3) (dt : ℚ)
    (rows : List (List Vec3)) (a : List Vec3) (hne : rows ≠ []) :
    rows.foldl (fun _acc row => convectRow f dt row) a
      = convectRow f dt (rows.getD (rows.length - 1) []) := by
  induction rows generalizing a with
  | nil => simp at hne
  | cons r t ih =>
      cases t with
      | nil => rfl
      | cons r2 t2 =>
          rw [show List.foldl (fun _acc row => convectRow f dt row) a
                (r :: r2 :: t2)
              = List.foldl (fun _acc row => convectRow f dt row)
                (convectRow f dt r) (r2 :: t2) from rfl,
            ih _ (by simp)]
          congr 1

/-- C8 (amended): only the legacy unsteady solver exposes the wake-model knob:
its `prescribed_wake` flag selects the freestream (true, the spec's prescribed
mode) or the solution velocity at the vertex (false, the spec's free mode);
the current unsteady solver always convects wake vertices with the freestream
alone, in both branches of `populate_next_airplanes_wake_vortex_vertices`: at
step 0 the appended second row is the trailing-edge row convected one full
step by the freestream (on the empty wake grid a fresh wing carries; in
general the convection of the stacked grid's last row), and at every later
step every existing vertex is moved by the freestream times the step. -/
theorem claim_c8_wake_convection_modes (f : Vec3) (sv : Vec3 → Vec3)
    (v : Vec3) (env : WakeEnv) (k : ℕ) (prev : List (List Vec3)) :
    legacyWakeVelocityAtVertex true f sv v
      = specWakeConvectionVelocity WakeModelMode.prescribed f sv v ∧
    legacyWakeVelocityAtVertex false f sv v
      = specWakeConvectionVelocity WakeModelMode.free f sv v ∧
    populateWakeVertices env 0 []
      = [newWakeRow env 0,
          (newWakeRow env 0).map
            (fun u => u + env.delta_time • env.freestream 0)] ∧
    populateWakeVertices env 0 prev
      = (prev ++ [newWakeRow env 0]) ++
          [(((prev ++ [newWakeRow env 0]).getD
              ((prev ++ [newWakeRow env 0]).length - 1) []).map
            (fun u => u + env.delta_time • env.freestream 0))] ∧
    (k ≠ 0 →
      populateWakeVertices env k prev
        = newWakeRow env k ::
            prev.map (fun row =>
              row.map (fun u => u + env.delta_time • env.freestream k))) := by
  refine ⟨rfl, rfl, ?_, ?_, ?_⟩
  · show ([] ++ [newWakeRow env 0]) ++ [_] = _
    rw [List.nil_append,
      foldl_convect_eq_last (env.freestream 0) env.delta_time
        [newWakeRow env 0] _ (by simp)]
    rfl
  · show (prev ++ [newWakeRow env 0]) ++ [_] = _
    rw [foldl_convect_eq_last (env.freestream 0) env.delta_time
      (prev ++ [newWakeRow env 0]) _ (by simp)]
    rfl
  · intro h
    simp [populateWakeVertices, h, convectRow]

/-- Witness for C8 at a concrete nonzero step. -/
theorem claim_c8_wake_convection_modes_witness :
    ((1 : ℕ) ≠ 0) ∧
    legacyWakeVelocityAtVertex true ⟨1, 0, 0⟩ (fun _ => 0) 0
      = specWakeConvectionVelocity WakeModelMode.prescribed ⟨1, 0, 0⟩
          (fun _ => 0) 0 ∧
    legacyWakeVelocityAtVertex false ⟨1, 0, 0⟩ (fun _ => 0) 0
      = specWakeConvectionVelocity WakeModelMode.free ⟨1, 0, 0⟩
          (fun _ => 0) 0 ∧
    populateWakeVertices sampleWakeEnv 0 []
      = [newWakeRow sampleWakeEnv 0,
          (newWakeRow sampleWakeEnv 0).map
            (fun u =>
              u + sampleWakeEnv.delta_time • sampleWakeEnv.freestream 0)] ∧
    populateWakeVertices sampleWakeEnv 1 []
      = newWakeRow sampleWakeEnv 1 ::
          ([] : List (List Vec3)).map (fun row =>
            row.map (fun u =>
              u + sampleWakeEnv.delta_time • sampleWakeEnv.freestream 1)) :=
  ⟨one_ne_zero,
    (claim_c8_wake_convection_modes ⟨1, 0, 0⟩ (fun _ => 0) 0 sampleWakeEnv 1
        []).1,
    (claim_c8_wake_convection_modes ⟨1, 0, 0⟩ (fun _ => 0) 0 sampleWakeEnv 1
        []).2.1,
    (claim_c8_wake_convection_modes ⟨1, 0, 0⟩ (fun _ => 0) 0 sampleWakeEnv 1
        []).2.2.1,
    (claim_c8_wake_convection_modes ⟨1, 0, 0⟩ (fun _ => 0) 0 sampleWakeEnv 1
        []).2.2.2.2 one_ne_zero⟩

theorem streamlineFrom_length (vel : Vec3 → Vec3) (dt : ℚ) (n : ℕ)
    (p : Vec3) : (streamlineFrom vel dt n p).length = n + 1 := by
  induction n generalizing p with
  | zero => rfl
  | succ n ih => simp [streamlineFrom, ih]

theorem streamlineFrom_head (vel : Vec3 → Vec3) (dt : ℚ) (n : ℕ) (p d : Vec3) :
    (streamlineFrom vel dt n p).getD 0 d = p := by
  cases n <;> rfl

theorem streamlineFrom_step (vel : Vec3 → Vec3) (dt : ℚ) (n : ℕ) (p d : Vec3)
    (i : ℕ) (h : i < n) :
    (streamlineFrom vel dt n p).getD (i + 1) d
      = (streamlineFrom vel dt n p).getD i d
        + dt • vel ((streamlineFrom vel dt n p).getD i d) := by
  induction n generalizing p i with
  | zero => omega
  | succ n ih =>
      cases i with
      | zero =>
          have h1 : (streamlineFrom vel dt (n + 1) p).getD (0 + 1) d
              = (streamlineFrom vel dt n (p + dt • vel p)).getD 0 d := rfl
          rw [h1, streamlineFrom_head, streamlineFrom_head]
      | succ j =>
          have hj := ih (p + dt • vel p) j (by omega)
          simpa [streamlineFrom, List.getD_cons_succ] using hj

/-- Counterexample to C9 as stated: the unsteady solver's streamline seed for
`squarePanel` (with unit freestream and movement step 1 s) is neither the
panel's back-edge midpoint (the claim's seed, used by the steady solvers) nor
even the ring vortex's bare back-leg center: it is the back-leg center
advected a quarter step downstream by the freestream. -/
theorem claim_c9_counterexample :
    unsteadyStreamlineSeed ⟨1, 0, 0⟩ 1 squarePanel
      ≠ steadyStreamlineSeed squarePanel ∧
    unsteadyStreamlineSeed ⟨1, 0, 0⟩ 1 squarePanel
      ≠ squarePanel.ring_vortex.back_leg.center := by
  constructor
  · rw [Ne, Vec3.ext_iff]
    norm_num [unsteadyStreamlineSeed, steadyStreamlineSeed, squarePanel,
      squareRing, RingVortex.back_leg, LineVortex.center]
  · rw [Ne, Vec3.ext_iff]
    norm_num [unsteadyStreamlineSeed, squarePanel, squareRing,
      RingVortex.back_leg, LineVortex.center]

/-- C9 (amended): each solver's `calculate_streamlines` produces, per spanwise
position at the trailing edge, exactly `num_steps + 1` points whose first
entry is the seed and whose successive entries follow explicit forward-Euler
steps through the solution velocity (vortices plus freestream, no flapping),
writing only the wing's streamline-point grid; the steady solvers seed at the
trailing-edge panel's back-edge midpoint, while the unsteady solver seeds at
the trailing-edge ring vortex's back-leg center advected a quarter of the
movement step by the freestream. -/
theorem claim_c9_streamline_integration (K : LineVortex → Vec3 → Vec3)
    (wings : List Wing) (freestream : Vec3) (dtMovement dt : ℚ)
    (numSteps : ℕ) (w : Wing) (s : ℕ) (hs : s < w.num_spanwise_panels) :
    (horseshoeCalculateStreamlines K wings freestream w).length
      = w.num_spanwise_panels ∧
    ((horseshoeCalculateStreamlines K wings freestream w).getD s []).length
      = 100 + 1 ∧
    ((horseshoeCalculateStreamlines K wings freestream w).getD s []).getD 0 0
      = steadyStreamlineSeed (w.panels (w.num_chordwise_panels - 1) s) ∧
    (∀ i < 100,
      ((horseshoeCalculateStreamlines K wings freestream w).getD s []).getD
          (i + 1) 0
        = ((horseshoeCalculateStreamlines K wings freestream w).getD s []).getD
            i 0
          + ((1 : ℚ) / 100) • steadySolutionVelocity K wings freestream
              (((horseshoeCalculateStreamlines K wings freestream w).getD s
                []).getD i 0)) ∧
    (unsteadyCalculateStreamlines K wings freestream dtMovement numSteps dt
        w).length = w.num_spanwise_panels ∧
    ((unsteadyCalculateStreamlines K wings freestream dtMovement numSteps dt
        w).getD s []).length = numSteps + 1 ∧
    ((unsteadyCalculateStreamlines K wings freestream dtMovement numSteps dt
        w).getD s []).getD 0 0
      = unsteadyStreamlineSeed freestream dtMovement
          (w.panels (w.num_chordwise_panels - 1) s) ∧
    (∀ i < numSteps,
      ((unsteadyCalculateStreamlines K wings freestream dtMovement numSteps dt
          w).getD s []).getD (i + 1) 0
        = ((unsteadyCalculateStreamlines K wings freestream dtMovement numSteps
            dt w).getD s []).getD i 0
          + dt • unsteadySolutionVelocity K wings freestream
              (((unsteadyCalculateStreamlines K wings freestream dtMovement
                numSteps dt w).getD s []).getD i 0)) := by
  have hh : (horseshoeCalculateStreamlines K wings freestream w).getD s []
      = streamlineFrom (steadySolutionVelocity K wings freestream)
          ((1 : ℚ) / 100) 100
          (steadyStreamlineSeed (w.panels (w.num_chordwise_panels - 1) s)) := by
    unfold horseshoeCalculateStreamlines
    exact getD_map_range _ _ _ _ hs
  have hu : (unsteadyCalculateStreamlines K wings freestream dtMovement
        numSteps dt w).getD s []
      = streamlineFrom (unsteadySolutionVelocity K wings freestream) dt
          numSteps
          (unsteadyStreamlineSeed freestream dtMovement
            (w.panels (w.num_chordwise_panels - 1) s)) := by
    unfold unsteadyCalculateStreamlines
    exact getD_map_range _ _ _ _ hs
  refine ⟨by simp [horseshoeCalculateStreamlines], ?_, ?_, ?_,
    by simp [unsteadyCalculateStreamlines], ?_, ?_, ?_⟩
  · rw [hh, streamlineFrom_length]
  · rw [hh, streamlineFrom_head]
  · intro i hi
    rw [hh]
    exact streamlineFrom_step _ _ _ _ _ i hi
  · rw [hu, streamlineFrom_length]
  · rw [hu, streamlineFrom_head]
  · intro i hi
    rw [hu]
    exact streamlineFrom_step _ _ _ _ _ i hi

/-- Witness for C9 at a concrete one-panel wing and spanwise position. -/
theorem claim_c9_streamline_integration_witness :
    0 < squareWing.num_spanwise_panels ∧
    ((horseshoeCalculateStreamlines sampleKernel [] 0 squareWing).length
        = squareWing.num_spanwise_panels ∧
      ((horseshoeCalculateStreamlines sampleKernel [] 0 squareWing).getD 0
          []).length = 100 + 1 ∧
      ((horseshoeCalculateStreamlines sampleKernel [] 0 squareWing).getD 0
          []).getD 0 0
        = steadyStreamlineSeed
            (squareWing.panels (squareWing.num_chordwise_panels - 1) 0) ∧
      (unsteadyCalculateStreamlines sampleKernel [] 0 1 2 1
          squareWing).length = squareWing.num_spanwise_panels ∧
      ((unsteadyCalculateStreamlines sampleKernel [] 0 1 2 1
          squareWing).getD 0 []).length = 2 + 1 ∧
      ((unsteadyCalculateStreamlines sampleKernel [] 0 1 2 1
          squareWing).getD 0 []).getD 0 0
        = unsteadyStreamlineSeed 0 1
            (squareWing.panels (squareWing.num_chordwise_panels - 1) 0)) := by
  have h := claim_c9_streamline_integration sampleKernel [] 0 1 1 2
    squareWing 0 (by decide)
  exact ⟨by decide, h.1, h.2.1, h.2.2.1, h.2.2.2.2.1, h.2.2.2.2.2.1,
    h.2.2.2.2.2.2.1⟩

theorem getD_map_of_lt {α β : Type} (f : α → β) (l : List α) (i : ℕ)
    (d : β) (d2 : α) (h : i < l.length) :
    (l.map f).getD i d = f (l.getD i d2) := by
  induction l generalizing i with
  | nil => simp at h
  | cons a t ih =>
      cases i with
      | zero => rfl
      | succ j =>
          simp only [List.map_cons, List.getD_cons_succ]
          exact ih j (by simpa using h)

/-- C5 (amended): with a nonsingular assembled matrix,
`calculate_vortex_strengths` returns the solution `Γ` of
`AIC · Γ = -(freestream_influence + wake_influence)` and scatters it back:
every panel's ring vortex strength becomes the entry of `Γ` at the panel's
raveled index WITHIN ITS OWN WING (which is the panel's global index exactly
when the airplane has a single wing), and a panel owning a horseshoe vortex
gives it the same entry. -/
theorem claim_c5_solve_and_scatter {n : ℕ} (A : Matrix (Fin n) (Fin n) ℚ)
    (fInf wInf : Fin n → ℚ) (wings : List Wing) (hdet : A.det ≠ 0) :
    ∃ gamma wings2,
      calculateVortexStrengths A fInf wInf wings
        = Except.ok (gamma, wings2) ∧
      A.mulVec gamma = (fun i => -(fInf i + wInf i)) ∧
      (∀ wi, wi < wings.length →
        ∀ c s, c < (wings.getD wi defaultWing).num_chordwise_panels →
          s < (wings.getD wi defaultWing).num_spanwise_panels →
          (((wings2.getD wi defaultWing).panels c s).ring_vortex.strength
            = extendVec gamma
                (ravelIndex (wings.getD wi defaultWing).num_spanwise_panels
                  c s)) ∧
          (((wings2.getD wi defaultWing).panels c s).horseshoe_vortex
            = ((wings.getD wi defaultWing).panels c s).horseshoe_vortex.map
                (fun hv => hv.update_strength
                  (extendVec gamma
                    (ravelIndex
                      (wings.getD wi defaultWing).num_spanwise_panels
                      c s))))) := by
  have hsolve : linalgSolve A (fun i => -wInf i - fInf i)
      = Except.ok (A.det⁻¹ •
          A.adjugate.mulVec (fun i => -wInf i - fInf i)) := by
    simp [linalgSolve, hdet]
  refine ⟨A.det⁻¹ • A.adjugate.mulVec (fun i => -wInf i - fInf i),
    wings.map (updateWingStrengths
      (extendVec (A.det⁻¹ •
        A.adjugate.mulVec (fun i => -wInf i - fInf i)))), ?_, ?_, ?_⟩
  · simp [calculateVortexStrengths, hsolve]
  · rw [Matrix.mulVec_smul, Matrix.mulVec_mulVec, Matrix.mul_adjugate,
      Matrix.smul_mulVec_assoc, Matrix.one_mulVec, smul_smul,
      inv_mul_cancel₀ hdet, one_smul]
    funext i
    ring
  · intro wi hwi c s hc hs
    have hmap : (wings.map (updateWingStrengths
        (extendVec (A.det⁻¹ •
          A.adjugate.mulVec (fun i => -wInf i - fInf i))))).getD wi defaultWing
        = updateWingStrengths
            (extendVec (A.det⁻¹ •
              A.adjugate.mulVec (fun i => -wInf i - fInf i)))
            (wings.getD wi defaultWing) :=
      getD_map_of_lt _ wings wi _ defaultWing hwi
    rw [hmap]
    constructor
    · simp only [updateWingStrengths]
      rw [if_pos ⟨hc, hs⟩]
      rfl
    · simp only [updateWingStrengths]
      rw [if_pos ⟨hc, hs⟩]

/-- Witness for C5 at a concrete nonsingular one-panel system. -/
theorem claim_c5_solve_and_scatter_witness :
    (1 : Matrix (Fin 1) (Fin 1) ℚ).det ≠ 0 ∧
    (∃ gamma wings2,
      calculateVortexStrengths (1 : Matrix (Fin 1) (Fin 1) ℚ) (fun _ => -1)
          (fun _ => 0) [squareWing]
        = Except.ok (gamma, wings2) ∧
      (1 : Matrix (Fin 1) (Fin 1) ℚ).mulVec gamma
        = (fun i => -((fun _ : Fin 1 => (-1 : ℚ)) i + (fun _ : Fin 1 => (0 : ℚ)) i)) ∧
      (∀ wi, wi < [squareWing].length →
        ∀ c s, c < ([squareWing].getD wi defaultWing).num_chordwise_panels →
          s < ([squareWing].getD wi defaultWing).num_spanwise_panels →
          (((wings2.getD wi defaultWing).panels c s).ring_vortex.strength
            = extendVec gamma
                (ravelIndex
                  ([squareWing].getD wi defaultWing).num_spanwise_panels
                  c s)) ∧
          (((wings2.getD wi defaultWing).panels c s).horseshoe_vortex
            = (([squareWing].getD wi defaultWing).panels c
                s).horseshoe_vortex.map
                (fun hv => hv.update_strength
                  (extendVec gamma
                    (ravelIndex
                      ([squareWing].getD wi defaultWing).num_spanwise_panels
                      c s)))))) :=
  ⟨by simp,
    claim_c5_solve_and_scatter (1 : Matrix (Fin 1) (Fin 1) ℚ) (fun _ => -1)
      (fun _ => 0) [squareWing] (by simp)⟩

/-- Counterexample to C5 as stated: with two one-panel wings and the identity
influence matrix, the solved vector is `Γ = (1, 2)`, but the second wing's
panel (global raveled index 1) receives `Γ` at its within-wing index 0 and
ends with strength `1`, not its corresponding global entry `2`. -/
theorem claim_c5_counterexample :
    (calculateVortexStrengths (1 : Matrix (Fin 2) (Fin 2) ℚ)
        (fun i => -((i : ℚ) + 1)) (fun _ => 0)
        [squareWing, squareWing]).map
        (fun p => (((p.2.getD 1 defaultWing).panels 0 0).ring_vortex.strength,
          extendVec p.1 1))
      = Except.ok ((1 : ℚ), (2 : ℚ)) ∧ (1 : ℚ) ≠ 2 := by
  constructor
  · have hb : (fun i : Fin 2 => -(fun _ : Fin 2 => (0 : ℚ)) i
        - (fun i : Fin 2 => -((i : ℚ) + 1)) i) = (fun i : Fin 2 => (i : ℚ) + 1) := by
      funext i
      ring
    have hsolve : linalgSolve (1 : Matrix (Fin 2) (Fin 2) ℚ)
        (fun i : Fin 2 => -(fun _ : Fin 2 => (0 : ℚ)) i
          - (fun i : Fin 2 => -((i : ℚ) + 1)) i)
        = Except.ok (fun i : Fin 2 => (i : ℚ) + 1) := by
      rw [hb]
      simp [linalgSolve, Matrix.adjugate_one, Matrix.one_mulVec]
    simp only [calculateVortexStrengths, hsolve, Except.map]
    have hstrength : ((([squareWing, squareWing].map
        (updateWingStrengths (extendVec (fun i : Fin 2 => (i : ℚ) + 1)))).getD
          1 defaultWing).panels 0 0).ring_vortex.strength = 1 := by
      norm_num [updateWingStrengths, squareWing, extendVec, ravelIndex,
        RingVortex.update_strength]
    rw [hstrength]
    norm_num [extendVec]
  · norm_num

theorem scatterRow_apply (value : ℕ → ℕ → ℚ) (c ns k : ℕ) (v : ℕ → ℚ)
    (i : ℕ) :
    ((List.range k).foldl
        (fun v2 s => writeAt v2 (ravelIndex ns c s) (value c s)) v) i
      = if c * ns ≤ i ∧ i < c * ns + k then value c (i - c * ns) else v i := by
  induction k with
  | zero =>
      simp only [List.range_zero, List.foldl_nil]
      rw [if_neg (by omega)]
  | succ k ih =>
      rw [List.range_succ, List.foldl_append, List.foldl_cons, List.foldl_nil]
      show (if i = ravelIndex ns c k then value c k
          else (List.range k).foldl
            (fun v2 s => writeAt v2 (ravelIndex ns c s) (value c s)) v i) = _
      have hrv : ravelIndex ns c k = c * ns + k := rfl
      rw [hrv]
      by_cases hi : i = c * ns + k
      · rw [if_pos hi, if_pos ⟨by omega, by omega⟩]
        congr 1
        omega
      · rw [if_neg hi, ih]
        by_cases h2 : c * ns ≤ i ∧ i < c * ns + k
        · rw [if_pos h2, if_pos ⟨h2.1, by omega⟩]
        · rw [if_neg h2, if_neg (by omega)]

theorem scatterWingInfluences_apply (value : ℕ → ℕ → ℚ) (nc ns : ℕ)
    (v0 : ℕ → ℚ) (i : ℕ) :
    scatterWingInfluences value nc ns v0 i
      = if i < nc * ns then value (i / ns) (i % ns) else v0 i := by
  unfold scatterWingInfluences
  induction nc with
  | zero => simp
  | succ m ih =>
      rw [List.range_succ, List.foldl_append, List.foldl_cons, List.foldl_nil]
      rw [scatterRow_apply]
      have hsm : (m + 1) * ns = m * ns + ns := by ring
      by_cases h1 : m * ns ≤ i ∧ i < m * ns + ns
      · have hdiv : i / ns = m :=
          Nat.div_eq_of_lt_le h1.1 (by rw [Nat.succ_mul]; omega)
        have hmod : i % ns = i - m * ns := by
          have hdm := Nat.div_add_mod i ns
          rw [hdiv, Nat.mul_comm ns m] at hdm
          omega
        rw [if_pos h1, if_pos (by omega), hdiv, hmod]
      · rw [if_neg h1, ih]
        by_cases h2 : i < m * ns
        · rw [if_pos h2, if_pos (by omega)]
        · rw [if_neg h2, if_neg (by omega)]

theorem influenceVectorAux_apply (val : ℕ → Wing → ℕ → ℕ → ℚ) (nc ns : ℕ)
    (ws : List Wing) (wpos : ℕ) (v : ℕ → ℚ) (i : ℕ)
    (hdim : ∀ u ∈ ws,
      u.num_chordwise_panels = nc ∧ u.num_spanwise_panels = ns) :
    influenceVectorAux val wpos ws v i
      = if 0 < ws.length ∧ i < nc * ns then
          val (wpos + ws.length - 1) (ws.getD (ws.length - 1) defaultWing)
            (i / ns) (i % ns)
        else v i := by
  induction ws generalizing wpos v with
  | nil => simp [influenceVectorAux]
  | cons w rest ih =>
      obtain ⟨hwc, hwns⟩ := hdim w (List.mem_cons_self w rest)
      show influenceVectorAux val (wpos + 1) rest
          (scatterWingInfluences (val wpos w) w.num_chordwise_panels
            w.num_spanwise_panels v) i = _
      rw [ih (wpos + 1) _ (fun u hu => hdim u (List.mem_cons_of_mem _ hu))]
      cases rest with
      | nil =>
          rw [if_neg (by simp), hwc, hwns, scatterWingInfluences_apply]
          by_cases hi : i < nc * ns
          · rw [if_pos hi, if_pos ⟨by simp, hi⟩]
            simp
          · rw [if_neg hi, if_neg (by simp [hi])]
      | cons w2 rest2 =>
          by_cases hi : i < nc * ns
          · rw [if_pos ⟨by simp, hi⟩, if_pos ⟨by simp, hi⟩]
            have hA : wpos + 1 + (w2 :: rest2).length - 1
                = wpos + (w :: w2 :: rest2).length - 1 := by
              simp
              omega
            have hB : (w2 :: rest2).getD ((w2 :: rest2).length - 1) defaultWing
                = (w :: w2 :: rest2).getD ((w :: w2 :: rest2).length - 1)
                  defaultWing := by
              simp [List.getD_cons_succ]
            rw [hA, hB]
          · rw [if_neg (by simp [hi]), if_neg (by simp [hi]), hwc, hwns,
              scatterWingInfluences_apply, if_neg hi]

theorem aicInner_apply (val : ℕ → ℕ → ℚ) (ci k : ℕ) (m : ℕ → ℕ → ℚ)
    (a b : ℕ) :
    ((List.range k).foldl
        (fun m4 vi => writeAt2 m4 ci vi (val ci vi)) m) a b
      = if a = ci ∧ b < k then val ci b else m a b := by
  induction k with
  | zero =>
      simp only [List.range_zero, List.foldl_nil]
      rw [if_neg (by rintro ⟨_, h⟩; omega)]
  | succ k ih =>
      rw [List.range_succ, List.foldl_append, List.foldl_cons, List.foldl_nil]
      show writeAt2 _ ci k (val ci k) a b = _
      simp only [writeAt2]
      by_cases hab : a = ci ∧ b = k
      · rw [if_pos hab, if_pos ⟨hab.1, by omega⟩, hab.2]
      · rw [if_neg hab, ih]
        by_cases h2 : a = ci ∧ b < k
        · rw [if_pos h2, if_pos ⟨h2.1, by omega⟩]
        · rw [if_neg h2, if_neg (by
            rintro ⟨rfl, hb⟩
            rcases Nat.lt_succ_iff_lt_or_eq.1 hb with h3 | h3
            · exact h2 ⟨rfl, h3⟩
            · exact hab ⟨rfl, h3⟩)]

theorem aicRows_apply (val : ℕ → ℕ → ℚ) (rows cnt : ℕ) (m0 : ℕ → ℕ → ℚ)
    (a b : ℕ) :
    ((List.range rows).foldl
        (fun m2 ci =>
          (List.range cnt).foldl
            (fun m4 vi => writeAt2 m4 ci vi (val ci vi)) m2) m0) a b
      = if a < rows ∧ b < cnt then val a b else m0 a b := by
  induction rows with
  | zero =>
      simp only [List.range_zero, List.foldl_nil]
      rw [if_neg (by rintro ⟨h, _⟩; omega)]
  | succ r ih =>
      rw [List.range_succ, List.foldl_append, List.foldl_cons, List.foldl_nil]
      rw [aicInner_apply, ih]
      by_cases hab : a = r ∧ b < cnt
      · rw [if_pos hab, if_pos ⟨by omega, hab.2⟩, hab.1]
      · by_cases h2 : a < r ∧ b < cnt
        · rw [if_neg hab, if_pos h2, if_pos ⟨by omega, h2.2⟩]
        · rw [if_neg hab, if_neg h2, if_neg (by
            rintro ⟨ha, hb⟩
            rcases Nat.lt_succ_iff_lt_or_eq.1 ha with h3 | h3
            · exact h2 ⟨h3, hb⟩
            · exact hab ⟨h3, hb⟩)]

theorem ravelIndex_lt (nc ns c s : ℕ) (hc : c < nc) (hs : s < ns) :
    ravelIndex ns c s < nc * ns := by
  unfold ravelIndex
  calc c * ns + s < c * ns + ns := by omega
    _ = (c + 1) * ns := (Nat.succ_mul c ns).symm
    _ ≤ nc * ns := Nat.mul_le_mul_right ns hc

theorem ravelIndex_div (ns c s : ℕ) (hs : s < ns) :
    ravelIndex ns c s / ns = c := by
  unfold ravelIndex
  exact Nat.div_eq_of_lt_le (Nat.le_add_right _ _) (by rw [Nat.succ_mul]; omega)

theorem ravelIndex_mod (ns c s : ℕ) (hs : s < ns) :
    ravelIndex ns c s % ns = s := by
  unfold ravelIndex
  rw [Nat.mul_add_mod', Nat.mod_eq_of_lt hs]

theorem panelAt_ravel (w : Wing) (c s : ℕ) (hs : s < w.num_spanwise_panels) :
    w.panelAt (ravelIndex w.num_spanwise_panels c s) = w.panels c s := by
  unfold Wing.panelAt
  rw [ravelIndex_div _ _ _ hs, ravelIndex_mod _ _ _ hs]

/-- C10: the influence-vector assemblies store panel `(c, s)`'s value at
index `c * num_spanwise_panels + s` with no offset for preceding wings; for a
single-wing airplane this coincides with the raveled index used for the rows
and columns of the wing-wing influence matrix; for two or more wings (of the
same panel-grid dimensions) each entry below one wing's panel count holds the
LAST wing's value (later wings overwrite earlier ones) and every entry beyond
one wing's panel count stays zero. -/
theorem claim_c10_influence_vector_indexing (K : LineVortex → Vec3 → Vec3)
    (freestream : Vec3) (flap : ℕ → ℕ → ℕ → Vec3) (value : ℕ → ℕ → ℚ)
    (v : ℕ → ℚ) (w : Wing) (wings : List Wing) (nc ns c s c2 s2 i j : ℕ)
    (hc : c < w.num_chordwise_panels) (hs : s < w.num_spanwise_panels)
    (hc2 : c2 < w.num_chordwise_panels) (hs2 : s2 < w.num_spanwise_panels)
    (hdim : ∀ u ∈ wings,
      u.num_chordwise_panels = nc ∧ u.num_spanwise_panels = ns)
    (hne : 0 < wings.length)
    (hj : w.num_chordwise_panels * w.num_spanwise_panels ≤ j) :
    (scatterWingInfluences value w.num_chordwise_panels w.num_spanwise_panels
        v (ravelIndex w.num_spanwise_panels c s) = value c s) ∧
    (calculateFreestreamWingInfluences freestream flap [w]
        (ravelIndex w.num_spanwise_panels c s)
      = Vec3.dot (freestream + flap 0 c s) (w.panels c s).normal_direction) ∧
    (calculateFreestreamWingInfluences freestream flap [w] j = 0) ∧
    (calculateWakeWingInfluences K [w] (ravelIndex w.num_spanwise_panels c s)
      = Vec3.dot (totalWakeVelocity K [w] (w.panels c s).collocation_point)
          (w.panels c s).normal_direction) ∧
    (calculateWakeWingInfluences K [w] j = 0) ∧
    (calculateWingWingInfluences K [w] (ravelIndex w.num_spanwise_panels c s)
        (ravelIndex w.num_spanwise_panels c2 s2)
      = Vec3.dot ((w.panels c2 s2).normalizedInducedVelocity K
            (w.panels c s).collocation_point)
          (w.panels c s).normal_direction) ∧
    (calculateFreestreamWingInfluences freestream flap wings i
      = if i < nc * ns then
          Vec3.dot (freestream + flap (wings.length - 1) (i / ns) (i % ns))
            ((wings.getD (wings.length - 1) defaultWing).panels (i / ns)
              (i % ns)).normal_direction
        else 0) ∧
    (calculateWakeWingInfluences K wings i
      = if i < nc * ns then
          Vec3.dot (totalWakeVelocity K wings
              ((wings.getD (wings.length - 1) defaultWing).panels (i / ns)
                (i % ns)).collocation_point)
            ((wings.getD (wings.length - 1) defaultWing).panels (i / ns)
              (i % ns)).normal_direction
        else 0) := by
  have hdim1 : ∀ u ∈ [w], u.num_chordwise_panels = w.num_chordwise_panels
      ∧ u.num_spanwise_panels = w.num_spanwise_panels := by
    intro u hu
    rcases List.mem_singleton.1 hu with rfl
    exact ⟨rfl, rfl⟩
  have hlt : ravelIndex w.num_spanwise_panels c s
      < w.num_chordwise_panels * w.num_spanwise_panels :=
    ravelIndex_lt _ _ _ _ hc hs
  refine ⟨?_, ?_, ?_, ?_, ?_, ?_, ?_, ?_⟩
  · rw [scatterWingInfluences_apply, if_pos hlt, ravelIndex_div _ _ _ hs,
      ravelIndex_mod _ _ _ hs]
  · unfold calculateFreestreamWingInfluences assembleInfluenceVector
    rw [influenceVectorAux_apply _ w.num_chordwise_panels
      w.num_spanwise_panels [w] 0 _ _ hdim1]
    rw [if_pos ⟨by simp, hlt⟩]
    simp only [List.length_singleton, Nat.zero_add, Nat.sub_self,
      List.getD_cons_zero]
    rw [ravelIndex_div _ _ _ hs, ravelIndex_mod _ _ _ hs]
  · unfold calculateFreestreamWingInfluences assembleInfluenceVector
    rw [influenceVectorAux_apply _ w.num_chordwise_panels
      w.num_spanwise_panels [w] 0 _ _ hdim1]
    rw [if_neg (by rintro ⟨_, hcon⟩; omega)]
  · unfold calculateWakeWingInfluences assembleInfluenceVector
    rw [influenceVectorAux_apply _ w.num_chordwise_panels
      w.num_spanwise_panels [w] 0 _ _ hdim1]
    rw [if_pos ⟨by simp, hlt⟩]
    simp only [List.length_singleton, Nat.zero_add, Nat.sub_self,
      List.getD_cons_zero]
    rw [ravelIndex_div _ _ _ hs, ravelIndex_mod _ _ _ hs]
  · unfold calculateWakeWingInfluences assembleInfluenceVector
    rw [influenceVectorAux_apply _ w.num_chordwise_panels
      w.num_spanwise_panels [w] 0 _ _ hdim1]
    rw [if_neg (by rintro ⟨_, hcon⟩; omega)]
  · have hlt2 : ravelIndex w.num_spanwise_panels c2 s2
        < w.num_chordwise_panels * w.num_spanwise_panels :=
      ravelIndex_lt _ _ _ _ hc2 hs2
    show ([w].foldl _ (fun _ _ => (0 : ℚ))) _ _ = _
    simp only [calculateWingWingInfluences, List.foldl_cons, List.foldl_nil]
    rw [aicRows_apply, if_pos ⟨hlt, hlt2⟩, panelAt_ravel _ _ _ hs,
      panelAt_ravel _ _ _ hs2]
  · unfold calculateFreestreamWingInfluences assembleInfluenceVector
    rw [influenceVectorAux_apply _ nc ns wings 0 _ _ hdim]
    by_cases hi : i < nc * ns
    · rw [if_pos ⟨hne, hi⟩, if_pos hi, Nat.zero_add]
    · rw [if_neg (by rintro ⟨_, hcon⟩; omega), if_neg hi]
  · unfold calculateWakeWingInfluences assembleInfluenceVector
    rw [influenceVectorAux_apply _ nc ns wings 0 _ _ hdim]
    by_cases hi : i < nc * ns
    · rw [if_pos ⟨hne, hi⟩, if_pos hi]
    · rw [if_neg (by rintro ⟨_, hcon⟩; omega), if_neg hi]

/-- Witness for C10 at two concrete one-panel wings. -/
theorem claim_c10_influence_vector_indexing_witness :
    ((0 : ℕ) < squareWing.num_chordwise_panels ∧
      (0 : ℕ) < squareWing.num_spanwise_panels ∧
      0 < ([squareWing, squareWing] : List Wing).length ∧
      squareWing.num_chordwise_panels * squareWing.num_spanwise_panels ≤ 1) ∧
    (scatterWingInfluences (fun _ _ => 5) squareWing.num_chordwise_panels
        squareWing.num_spanwise_panels (fun _ => 7)
        (ravelIndex squareWing.num_spanwise_panels 0 0) = 5) ∧
    (calculateFreestreamWingInfluences 0 (fun _ _ _ => 0) [squareWing] 1
      = 0) ∧
    (calculateFreestreamWingInfluences 0 (fun _ _ _ => 0)
        [squareWing, squareWing] 0
      = if 0 < 1 * 1 then
          Vec3.dot (0 + 0)
            ((([squareWing, squareWing] : List Wing).getD
              (([squareWing, squareWing] : List Wing).length - 1)
              defaultWing).panels (0 / 1) (0 % 1)).normal_direction
        else 0) :=
  have h := claim_c10_influence_vector_indexing sampleKernel 0
    (fun _ _ _ => 0) (fun _ _ => 5) (fun _ => 7) squareWing
    [squareWing, squareWing] 1 1 0 0 0 0 0 1 (by decide) (by decide)
    (by decide) (by decide)
    (by
      intro u hu
      rcases List.mem_cons.1 hu with rfl | hu2
      · exact ⟨rfl, rfl⟩
      · rcases List.mem_cons.1 hu2 with rfl | hu3
        · exact ⟨rfl, rfl⟩
        · simp at hu3)
    (by decide) (by decide)
  ⟨⟨by decide, by decide, by decide, by decide⟩, h.1, h.2.2.1,
    h.2.2.2.2.2.2.1⟩

end Asmvp
